import Mathlib

/-!
Verification of the server-side relay runtime of the messaging-app repository.

The Python modules under `src/` are shallowly embedded as pure Lean functions:

* dictionaries become association lists (`alookup` / `ainsert` mirror Python
  dict lookup and `d[k] = v` assignment, which replaces in place);
* Python `set(xs)` becomes `List.dedup xs` (membership and cardinality agree
  with the Python set; iteration order of a Python set is unspecified, so the
  dedup list is a canonical representative);
* `datetime` values become integers (a logical clock); every operation that
  calls `utc_now()` takes the current instant `now : Int` as a parameter, and
  the several `utc_now()` calls made inside one operation all denote that same
  logical instant;
* `timedelta(days=90)` becomes `ninety_days` seconds, `timedelta(minutes=5)`
  becomes 300 seconds;
* exceptions become explicit result values (`Option` / `Bool` success flags),
  matching how each caller in the source catches them;
* the WebSocket manager protocol is an oracle: `is_connected` and the boolean
  result of `send_to_device` are functions of the recipient id, which is
  exact for `relay_message` because it sends one frame per recipient.
-/

/-! ### Association-list maps (Python dict) -/

/-- Python dict lookup `d.get(k)`. -/
def alookup {κ α : Type} [DecidableEq κ] : List (κ × α) → κ → Option α
  | [], _ => none
  | (k', v') :: rest, k => if k' = k then some v' else alookup rest k

/-- Python dict assignment `d[k] = v`: replaces in place, else appends. -/
def ainsert {κ α : Type} [DecidableEq κ] : List (κ × α) → κ → α → List (κ × α)
  | [], k, v => [(k, v)]
  | (k', v') :: rest, k, v =>
      if k' = k then (k, v) :: rest else (k', v') :: ainsert rest k v

/-- Python dict deletion `d.pop(k, None)` / `del d[k]`. -/
def aerase {κ α : Type} [DecidableEq κ] (l : List (κ × α)) (k : κ) : List (κ × α) :=
  l.filter (fun p => p.1 ≠ k)

theorem alookup_ainsert_self {κ α : Type} [DecidableEq κ] (l : List (κ × α)) (k : κ) (v : α) :
    alookup (ainsert l k v) k = some v := by
  induction l with
  | nil => simp [ainsert, alookup]
  | cons p rest ih =>
    by_cases h : p.1 = k
    · simp [ainsert, alookup, h]
    · simp [ainsert, alookup, h, ih]

theorem alookup_ainsert_ne {κ α : Type} [DecidableEq κ] (l : List (κ × α)) (k k' : κ) (v : α)
    (h : k ≠ k') : alookup (ainsert l k v) k' = alookup l k' := by
  induction l with
  | nil => simp [ainsert, alookup, h]
  | cons p rest ih =>
    by_cases hp : p.1 = k
    · simp [ainsert, alookup, hp, h]
    · by_cases hp' : p.1 = k'
      · simp [ainsert, alookup, hp, hp', Ne.symm h]
      · simp [ainsert, alookup, hp, hp', ih]

/-! ### Substring containment (Python `pat in s`) -/

def substr_starts : List Char → List Char → Bool
  | [], _ => true
  | _ :: _, [] => false
  | a :: pat, b :: hay => a == b && substr_starts pat hay

def substr_at_any (pat : List Char) : List Char → Bool
  | [] => substr_starts pat []
  | b :: rest => substr_starts pat (b :: rest) || substr_at_any pat rest

/-- Python `s.lower()` viewed as a character list. -/
def str_lower (s : String) : List Char := s.toList.map Char.toLower

theorem substr_starts_iff (pat hay : List Char) : substr_starts pat hay = true ↔ pat <+: hay := by
  induction pat generalizing hay with
  | nil => simp [substr_starts]
  | cons a pat ih =>
    cases hay with
    | nil => simp [substr_starts]
    | cons b hay => simp [substr_starts, List.cons_prefix_cons, ih, And.comm]

theorem substr_at_any_iff (pat hay : List Char) : substr_at_any pat hay = true ↔ pat <:+: hay := by
  induction hay with
  | nil => simp [substr_at_any, substr_starts_iff, List.infix_nil]
  | cons b hay ih =>
    rw [substr_at_any, List.infix_cons_iff, Bool.or_eq_true, substr_starts_iff, ih]

/-! ### src/shared/device_identity_types.py -/

inductive DeviceIdentityState : Type
  | pending
  | provisioned
  | active
  | revoked
deriving DecidableEq

/-- `timedelta(days=90)` in seconds. -/
def ninety_days : Int := 90 * 86400

/-- `DeviceIdentity` dataclass (key material held as opaque strings). -/
structure DeviceIdentity : Type where
  device_id : String
  state : DeviceIdentityState
  public_key : String
  created_at : Int
  provisioned_at : Option Int := none
  activated_at : Option Int := none
  revoked_at : Option Int := none
  last_key_rotation : Int
  next_key_rotation : Option Int
  controller_id : Option String := none
deriving DecidableEq

/-- Dataclass construction with default factories plus `__post_init__`:
`created_at` and `last_key_rotation` default to `utc_now()`, and a missing
`next_key_rotation` is scheduled 90 days from creation. -/
def DeviceIdentity.mk_registered (device_id public_key : String)
    (controller_id : Option String) (now : Int) : DeviceIdentity :=
  { device_id := device_id
    state := .pending
    public_key := public_key
    created_at := now
    last_key_rotation := now
    next_key_rotation := some (now + ninety_days)
    controller_id := controller_id }

/-- `transition_to_provisioned`; raising `ValueError` is the `none` result. -/
def DeviceIdentity.transition_to_provisioned (d : DeviceIdentity) (now : Int) :
    Option DeviceIdentity :=
  if d.state ≠ .pending then none
  else some { d with state := .provisioned, provisioned_at := some now }

/-- `transition_to_active`; raising `ValueError` is the `none` result. -/
def DeviceIdentity.transition_to_active (d : DeviceIdentity) (now : Int) :
    Option DeviceIdentity :=
  if d.state ≠ .provisioned then none
  else some { d with state := .active, activated_at := some now }

/-- `transition_to_revoked`; already revoked is a silent no-op, and the
transition is refused (`ValueError`, the `none` result) outside
Active/Provisioned. -/
def DeviceIdentity.transition_to_revoked (d : DeviceIdentity) (now : Int)
    (trigger_key_rotation : Bool) : Option DeviceIdentity :=
  if d.state = .revoked then some d
  else if d.state ≠ .active ∧ d.state ≠ .provisioned then none
  else if trigger_key_rotation then
    some { d with state := .revoked, revoked_at := some now, last_key_rotation := now, next_key_rotation := none }
  else some { d with state := .revoked, revoked_at := some now }

def DeviceIdentity.is_active (d : DeviceIdentity) : Bool := d.state = .active

def DeviceIdentity.is_revoked (d : DeviceIdentity) : Bool := d.state = .revoked

/-! ### src/backend/device_registry.py -/

/-- `DeviceRegistry` in-memory state. -/
structure DeviceRegistry : Type where
  demo_mode : Bool
  devices : List (String × DeviceIdentity)
  device_last_seen : List (String × Int)
deriving DecidableEq

/-- `register_device`: inserts a Pending record, raising (the `false` result)
when the id is already present. -/
def DeviceRegistry.register_device (r : DeviceRegistry) (device_id public_key : String)
    (controller_id : Option String) (now : Int) : Bool × DeviceRegistry :=
  match alookup r.devices device_id with
  | some _ => (false, r)
  | none =>
      let d := DeviceIdentity.mk_registered device_id public_key controller_id now
      (true, { r with devices := ainsert r.devices device_id d })

/-- `provision_device`: Pending → Provisioned. -/
def DeviceRegistry.provision_device (r : DeviceRegistry) (device_id : String) (now : Int) :
    Bool × DeviceRegistry :=
  match alookup r.devices device_id with
  | none => (false, r)
  | some d =>
      match d.transition_to_provisioned now with
      | none => (false, r)
      | some d' => (true, { r with devices := ainsert r.devices device_id d' })

/-- `confirm_provisioning`: Provisioned → Active. -/
def DeviceRegistry.confirm_provisioning (r : DeviceRegistry) (device_id : String) (now : Int) :
    Bool × DeviceRegistry :=
  match alookup r.devices device_id with
  | none => (false, r)
  | some d =>
      match d.transition_to_active now with
      | none => (false, r)
      | some d' => (true, { r with devices := ainsert r.devices device_id d' })

/-- `revoke_device`: refuses when not found or already revoked, otherwise asks
for the transition with `trigger_key_rotation=True`. -/
def DeviceRegistry.revoke_device (r : DeviceRegistry) (device_id : String) (now : Int) :
    Bool × DeviceRegistry :=
  match alookup r.devices device_id with
  | none => (false, r)
  | some d =>
      if d.is_revoked then (false, r)
      else
        match d.transition_to_revoked now true with
        | none => (false, r)
        | some d' => (true, { r with devices := ainsert r.devices device_id d' })

/-- `rotate_device_key`. -/
def DeviceRegistry.rotate_device_key (r : DeviceRegistry) (device_id new_public_key : String)
    (now : Int) : Bool × DeviceRegistry :=
  match alookup r.devices device_id with
  | none => (false, r)
  | some d =>
      if d.is_revoked then
        (true, { r with devices := ainsert r.devices device_id { d with public_key := new_public_key, last_key_rotation := now, next_key_rotation := none } })
      else
        (true, { r with devices := ainsert r.devices device_id { d with public_key := new_public_key, last_key_rotation := now, next_key_rotation := some (now + ninety_days) } })

/-- `is_device_active`: demo-mode activity window first (5 minutes), then the
Active-state check. -/
def DeviceRegistry.is_device_active (r : DeviceRegistry) (device_id : String) (now : Int) :
    Bool :=
  let demo_hit :=
    r.demo_mode &&
      (match alookup r.device_last_seen device_id with
       | some last_seen => decide (now - last_seen ≤ 300)
       | none => false)
  if demo_hit then true
  else
    match alookup r.devices device_id with
    | none => false
    | some d => d.is_active

/-- `mark_device_seen` (demo mode only). -/
def DeviceRegistry.mark_device_seen (r : DeviceRegistry) (device_id : String) (now : Int) :
    DeviceRegistry :=
  if r.demo_mode then { r with device_last_seen := ainsert r.device_last_seen device_id now }
  else r

/-- The mutating registry operations named by the specification. -/
inductive RegistryOp : Type
  | register (device_id public_key : String) (controller_id : Option String) (now : Int)
  | provision (device_id : String) (now : Int)
  | confirm (device_id : String) (now : Int)
  | revoke (device_id : String) (now : Int)
  | rotate (device_id new_public_key : String) (now : Int)

def RegistryOp.apply (r : DeviceRegistry) : RegistryOp → DeviceRegistry
  | .register did pk cid now => (r.register_device did pk cid now).2
  | .provision did now => (r.provision_device did now).2
  | .confirm did now => (r.confirm_provisioning did now).2
  | .revoke did now => (r.revoke_device did now).2
  | .rotate did pk now => (r.rotate_device_key did pk now).2

/-- Position of a state along `Pending → Provisioned → Active → Revoked`. -/
def DeviceIdentityState.rank : DeviceIdentityState → Nat
  | .pending => 0
  | .provisioned => 1
  | .active => 2
  | .revoked => 3

/-! ### Claims C3 and C9: registry state machine -/

theorem transition_to_provisioned_states (d d' : DeviceIdentity) (now : Int)
    (h : d.transition_to_provisioned now = some d') :
    d.state = .pending ∧ d'.state = .provisioned ∧
      d'.last_key_rotation = d.last_key_rotation ∧
      d'.next_key_rotation = d.next_key_rotation := by
  unfold DeviceIdentity.transition_to_provisioned at h
  split at h
  · exact absurd h (by simp)
  · rename_i hs
    cases h
    simp_all

theorem transition_to_active_states (d d' : DeviceIdentity) (now : Int)
    (h : d.transition_to_active now = some d') :
    d.state = .provisioned ∧ d'.state = .active ∧
      d'.last_key_rotation = d.last_key_rotation ∧
      d'.next_key_rotation = d.next_key_rotation := by
  unfold DeviceIdentity.transition_to_active at h
  split at h
  · exact absurd h (by simp)
  · rename_i hs
    cases h
    simp_all

theorem transition_to_revoked_states (d d' : DeviceIdentity) (now : Int)
    (hnr : d.state ≠ .revoked)
    (h : d.transition_to_revoked now true = some d') :
    (d.state = .active ∨ d.state = .provisioned) ∧ d'.state = .revoked ∧
      d'.last_key_rotation = now ∧ d'.next_key_rotation = none := by
  unfold DeviceIdentity.transition_to_revoked at h
  rw [if_neg hnr] at h
  by_cases ha : d.state = .active
  · rw [if_neg (by simp [ha]), if_pos rfl] at h
    cases h
    exact ⟨Or.inl ha, rfl, rfl, rfl⟩
  · by_cases hp : d.state = .provisioned
    · rw [if_neg (by simp [hp]), if_pos rfl] at h
      cases h
      exact ⟨Or.inr hp, rfl, rfl, rfl⟩
    · rw [if_pos ⟨ha, hp⟩] at h
      exact absurd h (by simp)

theorem lookup_after_ainsert (l : List (String × DeviceIdentity)) (did : String)
    (dnew : DeviceIdentity) (d : String) (dev dev' : DeviceIdentity)
    (h : alookup l d = some dev) (h' : alookup (ainsert l did dnew) d = some dev') :
    (d = did ∧ dev' = dnew) ∨ dev' = dev := by
  by_cases hd : did = d
  · subst hd
    rw [alookup_ainsert_self] at h'
    exact Or.inl ⟨rfl, (Option.some_inj.mp h').symm⟩
  · rw [alookup_ainsert_ne _ _ _ _ hd, h] at h'
    exact Or.inr (Option.some_inj.mp h').symm

/-- Every registry operation either leaves the device map unchanged or
replaces one entry with a record of greater-or-equal state rank. -/
theorem apply_devices_shape (r : DeviceRegistry) (op : RegistryOp) :
    (op.apply r).devices = r.devices ∨
    ∃ did dnew, (op.apply r).devices = ainsert r.devices did dnew ∧
      ∀ x, alookup r.devices did = some x → x.state.rank ≤ dnew.state.rank := by
  cases op with
  | register did pk cid now =>
    cases hlk : alookup r.devices did with
    | some x =>
      refine Or.inl ?_
      simp [RegistryOp.apply, DeviceRegistry.register_device, hlk]
    | none =>
      refine Or.inr ⟨did, DeviceIdentity.mk_registered did pk cid now, ?_, ?_⟩
      · simp [RegistryOp.apply, DeviceRegistry.register_device, hlk]
      · intro x hx
        rw [hlk] at hx
        cases hx
  | provision did now =>
    cases hlk : alookup r.devices did with
    | none =>
      refine Or.inl ?_
      simp [RegistryOp.apply, DeviceRegistry.provision_device, hlk]
    | some x =>
      cases htr : x.transition_to_provisioned now with
      | none =>
        refine Or.inl ?_
        simp [RegistryOp.apply, DeviceRegistry.provision_device, hlk, htr]
      | some x' =>
        refine Or.inr ⟨did, x', ?_, ?_⟩
        · simp [RegistryOp.apply, DeviceRegistry.provision_device, hlk, htr]
        · intro y hy
          rw [hlk] at hy
          cases Option.some_inj.mp hy
          obtain ⟨h1, h2, -⟩ := transition_to_provisioned_states _ _ _ htr
          rw [h1, h2]
          decide
  | confirm did now =>
    cases hlk : alookup r.devices did with
    | none =>
      refine Or.inl ?_
      simp [RegistryOp.apply, DeviceRegistry.confirm_provisioning, hlk]
    | some x =>
      cases htr : x.transition_to_active now with
      | none =>
        refine Or.inl ?_
        simp [RegistryOp.apply, DeviceRegistry.confirm_provisioning, hlk, htr]
      | some x' =>
        refine Or.inr ⟨did, x', ?_, ?_⟩
        · simp [RegistryOp.apply, DeviceRegistry.confirm_provisioning, hlk, htr]
        · intro y hy
          rw [hlk] at hy
          cases Option.some_inj.mp hy
          obtain ⟨h1, h2, -⟩ := transition_to_active_states _ _ _ htr
          rw [h1, h2]
          decide
  | revoke did now =>
    cases hlk : alookup r.devices did with
    | none =>
      refine Or.inl ?_
      simp [RegistryOp.apply, DeviceRegistry.revoke_device, hlk]
    | some x =>
      cases hrv : x.is_revoked with
      | true =>
        refine Or.inl ?_
        simp [RegistryOp.apply, DeviceRegistry.revoke_device, hlk, hrv]
      | false =>
        cases htr : x.transition_to_revoked now true with
        | none =>
          refine Or.inl ?_
          simp [RegistryOp.apply, DeviceRegistry.revoke_device, hlk, hrv, htr]
        | some x' =>
          refine Or.inr ⟨did, x', ?_, ?_⟩
          · simp [RegistryOp.apply, DeviceRegistry.revoke_device, hlk, hrv, htr]
          · intro y hy
            rw [hlk] at hy
            cases Option.some_inj.mp hy
            have hnr : x.state ≠ .revoked := by
              intro hc
              rw [DeviceIdentity.is_revoked, hc] at hrv
              simp at hrv
            obtain ⟨-, h2, -⟩ := transition_to_revoked_states _ _ _ hnr htr
            rw [h2]
            cases hs : x.state <;> decide
  | rotate did pk now =>
    cases hlk : alookup r.devices did with
    | none =>
      refine Or.inl ?_
      simp [RegistryOp.apply, DeviceRegistry.rotate_device_key, hlk]
    | some x =>
      cases hrv : x.is_revoked with
      | true =>
        refine Or.inr ⟨did, { x with public_key := pk, last_key_rotation := now, next_key_rotation := none }, ?_, ?_⟩
        · simp [RegistryOp.apply, DeviceRegistry.rotate_device_key, hlk, hrv]
        · intro y hy
          rw [hlk] at hy
          cases Option.some_inj.mp hy
          exact le_refl _
      | false =>
        refine Or.inr ⟨did, { x with public_key := pk, last_key_rotation := now, next_key_rotation := some (now + ninety_days) }, ?_, ?_⟩
        · simp [RegistryOp.apply, DeviceRegistry.rotate_device_key, hlk, hrv]
        · intro y hy
          rw [hlk] at hy
          cases Option.some_inj.mp hy
          exact le_refl _

/-- C3: along any registry operation (register, provision, confirm, revoke,
rotate) a device's state only moves forward along
Pending → Provisioned → Active → Revoked, and `revoke_device` succeeds only
when the prior state is Active or Provisioned, never from Pending. -/
theorem device_state_forward_only (r : DeviceRegistry) (op : RegistryOp) (d : String) :
    (∀ dev dev', alookup r.devices d = some dev →
        alookup (op.apply r).devices d = some dev' →
        dev.state.rank ≤ dev'.state.rank) ∧
    (∀ now, (r.revoke_device d now).1 = true →
        ∃ dev, alookup r.devices d = some dev ∧
          (dev.state = .active ∨ dev.state = .provisioned)) := by
  constructor
  · intro dev dev' hdev hdev'
    rcases apply_devices_shape r op with hsame | ⟨did, dnew, heq, hrank⟩
    · rw [hsame, hdev] at hdev'
      cases Option.some_inj.mp hdev'
      exact le_refl _
    · rw [heq] at hdev'
      rcases lookup_after_ainsert _ _ _ _ _ _ hdev hdev' with ⟨hd, hnew⟩ | hnew
      · subst hd
        rw [hnew]
        exact hrank dev hdev
      · rw [hnew]
  · intro now hok
    cases hlk : alookup r.devices d with
    | none => simp [DeviceRegistry.revoke_device, hlk] at hok
    | some x =>
      cases hrv : x.is_revoked with
      | true => simp [DeviceRegistry.revoke_device, hlk, hrv] at hok
      | false =>
        cases htr : x.transition_to_revoked now true with
        | none => simp [DeviceRegistry.revoke_device, hlk, hrv, htr] at hok
        | some x' =>
          have hnr : x.state ≠ .revoked := by
            intro hc
            rw [DeviceIdentity.is_revoked, hc] at hrv
            simp at hrv
          obtain ⟨h1, -⟩ := transition_to_revoked_states _ _ _ hnr htr
          exact ⟨x, rfl, h1⟩

/-- The next-rotation discipline of one identity record: null when Revoked,
otherwise last rotation plus 90 days. -/
def rot_inv (dev : DeviceIdentity) : Prop :=
  dev.next_key_rotation =
    if dev.state = .revoked then none else some (dev.last_key_rotation + ninety_days)

instance (dev : DeviceIdentity) : Decidable (rot_inv dev) := by
  unfold rot_inv
  infer_instance

theorem lookup_ainsert_cases {α : Type} (l : List (String × α)) (did : String) (vnew : α)
    (d : String) (v' : α) (h' : alookup (ainsert l did vnew) d = some v') :
    v' = vnew ∨ alookup l d = some v' := by
  by_cases hd : did = d
  · subst hd
    rw [alookup_ainsert_self] at h'
    exact Or.inl (Option.some_inj.mp h').symm
  · rw [alookup_ainsert_ne _ _ _ _ hd] at h'
    exact Or.inr h'

/-- C9: every registry operation preserves the invariant that a device's
next-key-rotation field is null when the device is Revoked and otherwise
equals its last-key-rotation timestamp plus 90 days. -/
theorem rotation_schedule_invariant (r : DeviceRegistry) (op : RegistryOp)
    (hinv : ∀ d dev, alookup r.devices d = some dev → rot_inv dev) :
    ∀ d dev', alookup (op.apply r).devices d = some dev' → rot_inv dev' := by
  intro d dev' hdev'
  cases op with
  | register did pk cid now =>
    cases hlk : alookup r.devices did with
    | some x =>
      rw [show (RegistryOp.apply r (.register did pk cid now)).devices = r.devices by
        simp [RegistryOp.apply, DeviceRegistry.register_device, hlk]] at hdev'
      exact hinv d dev' hdev'
    | none =>
      rw [show (RegistryOp.apply r (.register did pk cid now)).devices =
          ainsert r.devices did (DeviceIdentity.mk_registered did pk cid now) by
        simp [RegistryOp.apply, DeviceRegistry.register_device, hlk]] at hdev'
      rcases lookup_ainsert_cases _ _ _ _ _ hdev' with hnew | hold
      · rw [hnew]
        simp [rot_inv, DeviceIdentity.mk_registered]
      · exact hinv d dev' hold
  | provision did now =>
    cases hlk : alookup r.devices did with
    | none =>
      rw [show (RegistryOp.apply r (.provision did now)).devices = r.devices by
        simp [RegistryOp.apply, DeviceRegistry.provision_device, hlk]] at hdev'
      exact hinv d dev' hdev'
    | some x =>
      cases htr : x.transition_to_provisioned now with
      | none =>
        rw [show (RegistryOp.apply r (.provision did now)).devices = r.devices by
          simp [RegistryOp.apply, DeviceRegistry.provision_device, hlk, htr]] at hdev'
        exact hinv d dev' hdev'
      | some x' =>
        rw [show (RegistryOp.apply r (.provision did now)).devices =
            ainsert r.devices did x' by
          simp [RegistryOp.apply, DeviceRegistry.provision_device, hlk, htr]] at hdev'
        rcases lookup_ainsert_cases _ _ _ _ _ hdev' with hnew | hold
        · subst hnew
          obtain ⟨h1, h2, h3, h4⟩ := transition_to_provisioned_states _ _ _ htr
          have hx := hinv did x hlk
          unfold rot_inv at hx ⊢
          rw [h2, h3, h4, hx, h1]
          simp
        · exact hinv d dev' hold
  | confirm did now =>
    cases hlk : alookup r.devices did with
    | none =>
      rw [show (RegistryOp.apply r (.confirm did now)).devices = r.devices by
        simp [RegistryOp.apply, DeviceRegistry.confirm_provisioning, hlk]] at hdev'
      exact hinv d dev' hdev'
    | some x =>
      cases htr : x.transition_to_active now with
      | none =>
        rw [show (RegistryOp.apply r (.confirm did now)).devices = r.devices by
          simp [RegistryOp.apply, DeviceRegistry.confirm_provisioning, hlk, htr]] at hdev'
        exact hinv d dev' hdev'
      | some x' =>
        rw [show (RegistryOp.apply r (.confirm did now)).devices =
            ainsert r.devices did x' by
          simp [RegistryOp.apply, DeviceRegistry.confirm_provisioning, hlk, htr]] at hdev'
        rcases lookup_ainsert_cases _ _ _ _ _ hdev' with hnew | hold
        · subst hnew
          obtain ⟨h1, h2, h3, h4⟩ := transition_to_active_states _ _ _ htr
          have hx := hinv did x hlk
          unfold rot_inv at hx ⊢
          rw [h2, h3, h4, hx, h1]
          simp
        · exact hinv d dev' hold
  | revoke did now =>
    cases hlk : alookup r.devices did with
    | none =>
      rw [show (RegistryOp.apply r (.revoke did now)).devices = r.devices by
        simp [RegistryOp.apply, DeviceRegistry.revoke_device, hlk]] at hdev'
      exact hinv d dev' hdev'
    | some x =>
      cases hrv : x.is_revoked with
      | true =>
        rw [show (RegistryOp.apply r (.revoke did now)).devices = r.devices by
          simp [RegistryOp.apply, DeviceRegistry.revoke_device, hlk, hrv]] at hdev'
        exact hinv d dev' hdev'
      | false =>
        cases htr : x.transition_to_revoked now true with
        | none =>
          rw [show (RegistryOp.apply r (.revoke did now)).devices = r.devices by
            simp [RegistryOp.apply, DeviceRegistry.revoke_device, hlk, hrv, htr]] at hdev'
          exact hinv d dev' hdev'
        | some x' =>
          rw [show (RegistryOp.apply r (.revoke did now)).devices =
              ainsert r.devices did x' by
            simp [RegistryOp.apply, DeviceRegistry.revoke_device, hlk, hrv, htr]] at hdev'
          rcases lookup_ainsert_cases _ _ _ _ _ hdev' with hnew | hold
          · subst hnew
            have hnr : x.state ≠ .revoked := by
              intro hc
              rw [DeviceIdentity.is_revoked, hc] at hrv
              simp at hrv
            obtain ⟨-, h2, -, h4⟩ := transition_to_revoked_states _ _ _ hnr htr
            unfold rot_inv
            rw [h2, h4]
            simp
          · exact hinv d dev' hold
  | rotate did pk now =>
    cases hlk : alookup r.devices did with
    | none =>
      rw [show (RegistryOp.apply r (.rotate did pk now)).devices = r.devices by
        simp [RegistryOp.apply, DeviceRegistry.rotate_device_key, hlk]] at hdev'
      exact hinv d dev' hdev'
    | some x =>
      cases hrv : x.is_revoked with
      | true =>
        rw [show (RegistryOp.apply r (.rotate did pk now)).devices =
            ainsert r.devices did { x with public_key := pk, last_key_rotation := now, next_key_rotation := none } by
          simp [RegistryOp.apply, DeviceRegistry.rotate_device_key, hlk, hrv]] at hdev'
        rcases lookup_ainsert_cases _ _ _ _ _ hdev' with hnew | hold
        · subst hnew
          have hxs : x.state = .revoked := by
            rw [DeviceIdentity.is_revoked] at hrv
            simpa using hrv
          unfold rot_inv
          simp [hxs]
        · exact hinv d dev' hold
      | false =>
        rw [show (RegistryOp.apply r (.rotate did pk now)).devices =
            ainsert r.devices did { x with public_key := pk, last_key_rotation := now, next_key_rotation := some (now + ninety_days) } by
          simp [RegistryOp.apply, DeviceRegistry.rotate_device_key, hlk, hrv]] at hdev'
        rcases lookup_ainsert_cases _ _ _ _ _ hdev' with hnew | hold
        · subst hnew
          have hxs : x.state ≠ .revoked := by
            intro hc
            rw [DeviceIdentity.is_revoked, hc] at hrv
            simp at hrv
          unfold rot_inv
          simp [hxs]
        · exact hinv d dev' hold

/-- A sample Active identity record used to instantiate the registry theorems. -/
def dev_active_sample : DeviceIdentity :=
  { device_id := "d1"
    state := .active
    public_key := "pk"
    created_at := 0
    last_key_rotation := 0
    next_key_rotation := some ninety_days }

/-- The record produced by revoking `dev_active_sample` at time 5. -/
def dev_revoked_sample : DeviceIdentity :=
  { device_id := "d1"
    state := .revoked
    public_key := "pk"
    created_at := 0
    revoked_at := some 5
    last_key_rotation := 5
    next_key_rotation := none }

/-- A sample registry holding one Active device. -/
def reg_sample : DeviceRegistry :=
  { demo_mode := false
    devices := [("d1", dev_active_sample)]
    device_last_seen := [] }

theorem reg_sample_rot_inv : ∀ d dev, alookup reg_sample.devices d = some dev → rot_inv dev := by
  intro d dev h
  simp only [reg_sample, alookup] at h
  split at h
  · cases Option.some_inj.mp h
    decide
  · cases h

theorem device_state_forward_only_witness :
    dev_active_sample.state.rank ≤ dev_revoked_sample.state.rank ∧
    (∃ dev, alookup reg_sample.devices "d1" = some dev ∧
      (dev.state = .active ∨ dev.state = .provisioned)) :=
  ⟨(device_state_forward_only reg_sample (.revoke "d1" 5) "d1").1
      dev_active_sample dev_revoked_sample (by decide) (by decide),
   (device_state_forward_only reg_sample (.revoke "d1" 5) "d1").2 5 (by decide)⟩

theorem rotation_schedule_invariant_witness :
    alookup (RegistryOp.apply reg_sample (.revoke "d1" 5)).devices "d1" =
      some dev_revoked_sample ∧ rot_inv dev_revoked_sample :=
  ⟨by decide,
   rotation_schedule_invariant reg_sample (.revoke "d1" 5) reg_sample_rot_inv "d1"
     dev_revoked_sample (by decide)⟩

/-! ### src/backend/message_relay.py -/

/-- One hex digit, lowercase, as produced by Python `bytes.hex()`. -/
def hex_digit (n : Nat) : Char :=
  if n < 10 then Char.ofNat (48 + n) else Char.ofNat (87 + n)

/-- Python `bytes.hex()` over a byte list. -/
def bytes_hex (bs : List Nat) : String :=
  String.mk ((bs.map (fun b => [hex_digit (b / 16), hex_digit (b % 16)])).flatten)

/-- The delivery-metadata dict stored in `_pending_deliveries`. Message ids
are UUIDs ordered by integer value; they are modelled as `Nat`. -/
structure MessageMeta : Type where
  message_id : Nat
  sender_id : String
  recipients : List String
  encrypted_payload : List Nat
  expiration_timestamp : Int
  conversation_id : String
  created_at : Int
deriving DecidableEq

/-- The WebSocket manager protocol as an oracle over recipient ids. -/
structure WSManager : Type where
  is_connected : String → Bool
  send_ok : String → Bool

/-- `_deliver_to_recipient`: WebSocket when connected, otherwise the message
just waits for REST polling (`True`). -/
def deliver_to_recipient (ws : Option WSManager) (rid : String) : Bool :=
  match ws with
  | some w => if w.is_connected rid then w.send_ok rid else true
  | none => true

/-- The metadata record `relay_message` stores: recipients filtered down to
the active ones. -/
def relay_stored_meta (is_active : String → Bool) (now : Int) (sender_id : String)
    (recipients : List String) (encrypted_payload : List Nat) (message_id : Nat)
    (expiration_timestamp : Int) (conversation_id : String) : MessageMeta :=
  { message_id := message_id
    sender_id := sender_id
    recipients := recipients.filter is_active
    encrypted_payload := encrypted_payload
    expiration_timestamp := expiration_timestamp
    conversation_id := conversation_id
    created_at := now }

/-- `relay_message`: validates sender, expiration, group size and recipients,
stores the filtered metadata, then attempts delivery to every valid
recipient; the result is the OR of the per-recipient outcomes. -/
def relay_message (is_active : String → Bool) (ws : Option WSManager)
    (pending : List (Nat × MessageMeta)) (now : Int) (sender_id : String)
    (recipients : List String) (encrypted_payload : List Nat) (message_id : Nat)
    (expiration_timestamp : Int) (conversation_id : String) :
    Bool × List (Nat × MessageMeta) :=
  if ¬ is_active sender_id then (false, pending)
  else if now ≥ expiration_timestamp then (false, pending)
  else if recipients.length > 50 then (false, pending)
  else if recipients.filter is_active = [] then (false, pending)
  else
    ((recipients.filter is_active).any (deliver_to_recipient ws),
      ainsert pending message_id
        (relay_stored_meta is_active now sender_id recipients encrypted_payload
          message_id expiration_timestamp conversation_id))

/-- One entry of the `/api/message/receive` response body. -/
structure MessageResponse : Type where
  message_id : Nat
  payload : String
  sender_id : String
  expiration : Int
  conversation_id : String
deriving DecidableEq

def mk_message_response (mid : Nat) (meta : MessageMeta) : MessageResponse :=
  { message_id := mid
    payload := bytes_hex meta.encrypted_payload
    sender_id := meta.sender_id
    expiration := meta.expiration_timestamp
    conversation_id := meta.conversation_id }

/-- Python `last_received_id and message_id <= last_received_id`. -/
def below_last (last_received_id : Option Nat) (mid : Nat) : Bool :=
  match last_received_id with
  | some l => mid ≤ l
  | none => false

/-- The per-entry filter of `get_pending_messages`: skip expired, skip
entries not addressed to the device, skip ids at or below
`last_received_id`. -/
def poll_entry (now : Int) (device_id : String) (last_received_id : Option Nat)
    (p : Nat × MessageMeta) : Option MessageResponse :=
  if now ≥ p.2.expiration_timestamp then none
  else if ¬ p.2.recipients.contains device_id then none
  else if below_last last_received_id p.1 then none
  else some (mk_message_response p.1 p.2)

/-- `get_pending_messages` (REST poll). -/
def get_pending_messages (is_active : String → Bool)
    (pending : List (Nat × MessageMeta)) (now : Int) (device_id : String)
    (last_received_id : Option Nat) : List MessageResponse :=
  if is_active device_id then pending.filterMap (poll_entry now device_id last_received_id)
  else []

/-- `cleanup_expired_messages`: drops every entry with
`now ≥ expiration_timestamp`. -/
def cleanup_expired_messages (pending : List (Nat × MessageMeta)) (now : Int) :
    List (Nat × MessageMeta) :=
  pending.filter (fun p => decide (now < p.2.expiration_timestamp))

/-- `acknowledge_delivery`: removes the device from the remaining-recipient
set and drops the entry once that set is empty. -/
def acknowledge_delivery (pending : List (Nat × MessageMeta)) (message_id : Nat)
    (device_id : String) : Bool × List (Nat × MessageMeta) :=
  match alookup pending message_id with
  | none => (false, pending)
  | some meta =>
      let meta' := { meta with recipients := meta.recipients.filter (fun r => r ≠ device_id) }
      if meta'.recipients = [] then (true, aerase pending message_id)
      else (true, ainsert pending message_id meta')

theorem poll_entry_some (now : Int) (device_id : String) (last : Option Nat)
    (p : Nat × MessageMeta) (r : MessageResponse)
    (h : poll_entry now device_id last p = some r) :
    now < p.2.expiration_timestamp ∧ r = mk_message_response p.1 p.2 := by
  unfold poll_entry at h
  by_cases h1 : now ≥ p.2.expiration_timestamp
  · rw [if_pos h1] at h
    cases h
  · rw [if_neg h1] at h
    by_cases h2 : p.2.recipients.contains device_id
    · rw [if_neg (not_not_intro h2)] at h
      by_cases h3 : below_last last p.1
      · rw [if_pos h3] at h
        cases h
      · rw [if_neg h3] at h
        cases h
        exact ⟨lt_of_not_ge h1, rfl⟩
    · rw [if_pos h2] at h
      cases h

/-- C1: once `now` reaches a pending entry's expiration timestamp the entry
is never returned by `get_pending_messages` for any device, and
`cleanup_expired_messages` removes every entry whose expiration timestamp is
at or below `now`. -/
theorem expiration_hard_deadline (is_active : String → Bool)
    (pending : List (Nat × MessageMeta)) (now : Int) (device_id : String)
    (last_received_id : Option Nat) (mid : Nat) (meta : MessageMeta) :
    (now ≥ meta.expiration_timestamp →
      mk_message_response mid meta ∉
        get_pending_messages is_active pending now device_id last_received_id) ∧
    ((mid, meta) ∈ pending → meta.expiration_timestamp ≤ now →
      (mid, meta) ∉ cleanup_expired_messages pending now) := by
  constructor
  · intro hexp hin
    unfold get_pending_messages at hin
    by_cases ha : is_active device_id
    · rw [if_pos ha] at hin
      obtain ⟨p, hp, hf⟩ := List.mem_filterMap.mp hin
      obtain ⟨hlt, heqr⟩ := poll_entry_some _ _ _ _ _ hf
      have hfield := congrArg MessageResponse.expiration heqr
      simp only [mk_message_response] at hfield
      rw [← hfield] at hlt
      exact absurd hexp (not_le_of_lt hlt)
    · rw [if_neg ha] at hin
      cases hin
  · intro hmem hexp hin
    unfold cleanup_expired_messages at hin
    have := (List.mem_filter.mp hin).2
    simp only [decide_eq_true_eq] at this
    exact absurd hexp (not_le_of_lt this)

theorem expiration_hard_deadline_witness :
    ((3 : Int) ≥ (2 : Int) ∧
      mk_message_response 1 { message_id := 1, sender_id := "S", recipients := ["A"], encrypted_payload := [1], expiration_timestamp := 2, conversation_id := "c", created_at := 0 } ∉
        get_pending_messages (fun _ => true) [(1, { message_id := 1, sender_id := "S", recipients := ["A"], encrypted_payload := [1], expiration_timestamp := 2, conversation_id := "c", created_at := 0 })] 3 "A" none) ∧
    ((1, ({ message_id := 1, sender_id := "S", recipients := ["A"], encrypted_payload := [1], expiration_timestamp := 2, conversation_id := "c", created_at := 0 } : MessageMeta)) ∉
      cleanup_expired_messages [(1, { message_id := 1, sender_id := "S", recipients := ["A"], encrypted_payload := [1], expiration_timestamp := 2, conversation_id := "c", created_at := 0 })] 3) :=
  ⟨⟨by decide,
    (expiration_hard_deadline (fun _ => true) _ 3 "A" none 1 _).1 (by decide)⟩,
   (expiration_hard_deadline (fun _ => true) _ 3 "A" none 1 _).2 (by decide) (by decide)⟩

/-- C10: a device that `is_device_active` rejects receives the empty list
from `get_pending_messages`, whatever the pending map holds. -/
theorem inactive_device_poll_empty (reg : DeviceRegistry) (now : Int)
    (pending : List (Nat × MessageMeta)) (device_id : String)
    (last_received_id : Option Nat)
    (h : reg.is_device_active device_id now = false) :
    get_pending_messages (fun d => reg.is_device_active d now) pending now device_id
      last_received_id = [] := by
  unfold get_pending_messages
  rw [if_neg (by simp [h])]

/-- A registry with one revoked device, polling a pending map that still
holds an unexpired message addressed to it. -/
def reg_revoked_sample : DeviceRegistry :=
  { demo_mode := false
    devices := [("r1", dev_revoked_sample)]
    device_last_seen := [] }

def pending_for_r1 : List (Nat × MessageMeta) :=
  [(9, { message_id := 9, sender_id := "S", recipients := ["r1"], encrypted_payload := [7], expiration_timestamp := 100, conversation_id := "c", created_at := 0 })]

theorem inactive_device_poll_empty_witness :
    reg_revoked_sample.is_device_active "r1" 1 = false ∧
    (1 : Int) < 100 ∧ (∃ p ∈ pending_for_r1, "r1" ∈ p.2.recipients) ∧
    get_pending_messages (fun d => reg_revoked_sample.is_device_active d 1) pending_for_r1 1
      "r1" none = [] :=
  ⟨by decide, by decide, by decide,
   inactive_device_poll_empty reg_revoked_sample 1 pending_for_r1 "r1" none (by decide)⟩

/-- C2 (amended): `relay_message` rejects — returning the failure result with
the pending map unchanged — whenever the sender is not active, the message is
already expired, more than 50 recipients are supplied, or no recipient at all
is an active device; otherwise it stores the message keyed by its id with the
recipient set restricted to the active recipients, and (when no WebSocket
manager is configured) reports success. -/
theorem relay_message_spec (is_active : String → Bool) (ws : Option WSManager)
    (pending : List (Nat × MessageMeta)) (now : Int) (sender_id : String)
    (recipients : List String) (encrypted_payload : List Nat) (message_id : Nat)
    (expiration_timestamp : Int) (conversation_id : String) :
    ((is_active sender_id = false ∨ now ≥ expiration_timestamp ∨
        recipients.length > 50 ∨ recipients.filter is_active = []) →
      relay_message is_active ws pending now sender_id recipients encrypted_payload
        message_id expiration_timestamp conversation_id = (false, pending)) ∧
    (is_active sender_id = true → now < expiration_timestamp →
      recipients.length ≤ 50 → recipients.filter is_active ≠ [] →
      (relay_message is_active ws pending now sender_id recipients encrypted_payload
          message_id expiration_timestamp conversation_id).2 =
        ainsert pending message_id
          (relay_stored_meta is_active now sender_id recipients encrypted_payload
            message_id expiration_timestamp conversation_id) ∧
      (ws = none →
        (relay_message is_active ws pending now sender_id recipients encrypted_payload
            message_id expiration_timestamp conversation_id).1 = true)) := by
  constructor
  · intro hrej
    unfold relay_message
    split_ifs with h1 h2 h3 h4
    any_goals rfl
    exfalso
    rcases hrej with h | h | h | h
    · rw [h] at h1
      exact absurd h1 (by simp)
    · exact h2 h
    · exact h3 h
    · exact h4 h
  · intro h1 h2 h3 h4
    unfold relay_message
    rw [if_neg (by simp [h1]), if_neg (not_le_of_lt h2), if_neg (by omega), if_neg h4]
    refine ⟨rfl, ?_⟩
    intro hws
    subst hws
    cases hv : recipients.filter is_active with
    | nil => exact absurd hv h4
    | cons a t => simp [deliver_to_recipient]

/-- The activity oracle of the C2 counterexample: `S` and `A` are active,
`B` is not. -/
def cx_active : String → Bool := fun d => d == "S" || d == "A"

/-- C2 counterexample: with recipient `B` inactive (and `A` active) the call
does not reject — it succeeds and stores the message with `B` silently
dropped from the recipient set. -/
theorem relay_message_counterexample :
    cx_active "B" = false ∧
    relay_message cx_active none [] 0 "S" ["A", "B"] [222] 42 100 "c1" =
      (true, [(42, { message_id := 42, sender_id := "S", recipients := ["A"], encrypted_payload := [222], expiration_timestamp := 100, conversation_id := "c1", created_at := 0 })]) := by
  constructor
  · decide
  · decide

theorem relay_message_spec_witness :
    (relay_message cx_active none [] 5 "S" ["A", "B"] [222] 42 100 "c1").2 =
      ainsert [] 42 (relay_stored_meta cx_active 5 "S" ["A", "B"] [222] 42 100 "c1") ∧
    (relay_message cx_active none [] 5 "S" ["A", "B"] [222] 42 100 "c1").1 = true ∧
    relay_message cx_active none [] 200 "S" ["A"] [1] 7 100 "c1" = (false, []) :=
  ⟨((relay_message_spec cx_active none [] 5 "S" ["A", "B"] [222] 42 100 "c1").2
      (by decide) (by decide) (by decide) (by decide)).1,
   ((relay_message_spec cx_active none [] 5 "S" ["A", "B"] [222] 42 100 "c1").2
      (by decide) (by decide) (by decide) (by decide)).2 rfl,
   (relay_message_spec cx_active none [] 200 "S" ["A"] [1] 7 100 "c1").1
      (Or.inr (Or.inl (by decide)))⟩

/-! ### src/shared/conversation_types.py and src/backend/conversation_store.py -/

inductive ConvState : Type
  | uncreated
  | active
  | closed
deriving DecidableEq

/-- The JSON object held per conversation key. -/
structure ConvRecord : Type where
  conversation_id : String
  participants : List String
  state : ConvState
  created_at : Int
  last_activity_at : Int
deriving DecidableEq

/-- `InMemoryConversationStore`: a plain dict. -/
abbrev MemStore : Type := List (String × ConvRecord)

def mem_get_conversation (st : MemStore) (cid : String) : Option ConvRecord :=
  alookup st cid

def mem_conversation_exists (st : MemStore) (cid : String) : Bool :=
  (alookup st cid).isSome

def mem_create_conversation (st : MemStore) (cid : String) (participants : List String)
    (state : ConvState) (now : Int) : Bool × MemStore :=
  match alookup st cid with
  | some _ => (false, st)
  | none =>
      (true, ainsert st cid { conversation_id := cid, participants := participants, state := state, created_at := now, last_activity_at := now })

def apply_participants (conv : ConvRecord) : Option (List String) → ConvRecord
  | some ps => { conv with participants := ps }
  | none => conv

def apply_state_field (conv : ConvRecord) : Option ConvState → ConvRecord
  | some s => { conv with state := s }
  | none => conv

def mem_update_conversation (st : MemStore) (cid : String)
    (participants : Option (List String)) (state : Option ConvState) (now : Int) :
    Bool × MemStore :=
  match alookup st cid with
  | none => (false, st)
  | some conv =>
      (true, ainsert st cid { apply_state_field (apply_participants conv participants) state with last_activity_at := now })

/-- `InMemoryConversationStore.add_participant`: already-member and capacity
checks only — the source performs no conversation-state check here. -/
def mem_add_participant (st : MemStore) (cid did : String) (now : Int) : Bool × MemStore :=
  match alookup st cid with
  | none => (false, st)
  | some conv =>
      if did ∈ conv.participants.dedup then (true, st)
      else if conv.participants.dedup.length ≥ 50 then (false, st)
      else (true, ainsert st cid { conv with participants := conv.participants.dedup ++ [did], last_activity_at := now })

/-- `InMemoryConversationStore.remove_participant`: closes the conversation
in the same operation when the participant set empties. -/
def mem_remove_participant (st : MemStore) (cid did : String) (now : Int) : Bool × MemStore :=
  match alookup st cid with
  | none => (false, st)
  | some conv =>
      if did ∈ conv.participants.dedup then
        if conv.participants.dedup.filter (fun r => r ≠ did) = [] then
          (true, ainsert st cid { conv with participants := conv.participants.dedup.filter (fun r => r ≠ did), state := .closed, last_activity_at := now })
        else
          (true, ainsert st cid { conv with participants := conv.participants.dedup.filter (fun r => r ≠ did), last_activity_at := now })
      else (false, st)

def mem_delete_conversation (st : MemStore) (cid : String) : Bool × MemStore :=
  if (alookup st cid).isSome then (true, aerase st cid) else (false, st)

/-- `RedisConversationStore` is modelled on its happy path: connected client,
no watch conflict, no exception; each entry carries the remaining TTL that
`ttl(key)` would report (−1 meaning no expiration). -/
structure RedisEntry : Type where
  record : ConvRecord
  ttl : Int
deriving DecidableEq

structure RedisStore : Type where
  ttl_seconds : Int
  entries : List (String × RedisEntry)
deriving DecidableEq

/-- TTL normalisation on write: −1 (no expiry) and any other negative value
fall back to the configured default, a non-negative remainder is preserved. -/
def redis_norm_ttl (default_ttl remaining : Int) : Int :=
  if remaining = -1 then default_ttl
  else if remaining < 0 then default_ttl
  else remaining

/-- `RedisConversationStore.add_participant`: member, capacity and
conversation-state checks inside the transaction. -/
def redis_add_participant (rs : RedisStore) (cid did : String) (now : Int) :
    Bool × RedisStore :=
  match alookup rs.entries cid with
  | none => (false, rs)
  | some e =>
      if did ∈ e.record.participants.dedup then (true, rs)
      else if e.record.participants.dedup.length ≥ 50 then (false, rs)
      else if e.record.state ≠ .active then (false, rs)
      else (true, { rs with entries := ainsert rs.entries cid { record := { e.record with participants := e.record.participants.dedup ++ [did], last_activity_at := now }, ttl := redis_norm_ttl rs.ttl_seconds e.ttl } })

/-- `RedisConversationStore.remove_participant`. -/
def redis_remove_participant (rs : RedisStore) (cid did : String) (now : Int) :
    Bool × RedisStore :=
  match alookup rs.entries cid with
  | none => (false, rs)
  | some e =>
      if did ∈ e.record.participants.dedup then
        if e.record.participants.dedup.filter (fun r => r ≠ did) = [] then
          (true, { rs with entries := ainsert rs.entries cid { record := { e.record with participants := e.record.participants.dedup.filter (fun r => r ≠ did), state := .closed, last_activity_at := now }, ttl := redis_norm_ttl rs.ttl_seconds e.ttl } })
        else
          (true, { rs with entries := ainsert rs.entries cid { record := { e.record with participants := e.record.participants.dedup.filter (fun r => r ≠ did), last_activity_at := now }, ttl := redis_norm_ttl rs.ttl_seconds e.ttl } })
      else (false, rs)

/-! ### Claim C4: add_participant on a Closed conversation -/

/-- A Closed conversation that still lists one participant. -/
def closed_conv_sample : ConvRecord :=
  { conversation_id := "c1"
    participants := ["A"]
    state := .closed
    created_at := 0
    last_activity_at := 0 }

/-- C4 (bug evidence): the in-memory `add_participant` performs no
conversation-state check, so adding a new device to a Closed conversation
succeeds and mutates the record, contradicting the abstract store contract
("False if conversation not found, closed, or limit exceeded"). -/
theorem mem_add_participant_closed_bug :
    closed_conv_sample.state = .closed ∧
    mem_add_participant [("c1", closed_conv_sample)] "c1" "B" 5 =
      (true, [("c1", { conversation_id := "c1", participants := ["A", "B"], state := .closed, created_at := 0, last_activity_at := 5 })]) := by
  constructor
  · rfl
  · decide

/-! ### Claim C5: empty participant set forces Closed -/

/-- The in-memory store operations. -/
inductive MemStoreOp : Type
  | create (cid : String) (participants : List String) (state : ConvState) (now : Int)
  | update (cid : String) (participants : Option (List String)) (state : Option ConvState) (now : Int)
  | add (cid did : String) (now : Int)
  | remove (cid did : String) (now : Int)
  | del (cid : String)

def MemStoreOp.apply (st : MemStore) : MemStoreOp → MemStore
  | .create cid ps state now => (mem_create_conversation st cid ps state now).2
  | .update cid ps state now => (mem_update_conversation st cid ps state now).2
  | .add cid did now => (mem_add_participant st cid did now).2
  | .remove cid did now => (mem_remove_participant st cid did now).2
  | .del cid => (mem_delete_conversation st cid).2

/-- Operations that never install an empty-but-open record: creates carry a
non-empty participant list, and updates either carry a non-empty participant
list or leave participants alone while not reopening the conversation. -/
def MemStoreOp.benign : MemStoreOp → Prop
  | .create _ ps _ _ => ps ≠ []
  | .update _ ps state _ =>
      ps ≠ some [] ∧ (ps = none → state = none ∨ state = some .closed)
  | _ => True

/-- Conversations with an empty participant set are Closed. -/
def empty_closed (st : MemStore) : Prop :=
  ∀ cid rec, alookup st cid = some rec → rec.participants = [] → rec.state = .closed

theorem alookup_aerase_self {α : Type} (l : List (String × α)) (k : String) :
    alookup (aerase l k) k = none := by
  induction l with
  | nil => rfl
  | cons p rest ih =>
    by_cases hk : p.1 = k
    · rw [show aerase (p :: rest) k = aerase rest k by simp [aerase, hk]]
      exact ih
    · rw [show aerase (p :: rest) k = p :: aerase rest k by simp [aerase, hk]]
      simp only [alookup, if_neg hk]
      exact ih

theorem alookup_aerase_some {α : Type} (l : List (String × α)) (k k' : String) (v : α)
    (h : alookup (aerase l k) k' = some v) : alookup l k' = some v := by
  induction l with
  | nil => cases h
  | cons p rest ih =>
    by_cases hk : p.1 = k
    · rw [show aerase (p :: rest) k = aerase rest k by simp [aerase, hk]] at h
      by_cases hk' : p.1 = k'
      · have hkk : k = k' := by rw [← hk, hk']
        subst hkk
        rw [alookup_aerase_self] at h
        cases h
      · simp only [alookup, if_neg hk']
        exact ih h
    · rw [show aerase (p :: rest) k = p :: aerase rest k by simp [aerase, hk]] at h
      by_cases hk' : p.1 = k'
      · simp only [alookup, if_pos hk'] at h ⊢
        exact h
      · simp only [alookup, if_neg hk'] at h ⊢
        exact ih h

/-- C5 (amended): both `remove_participant` implementations set the state to
Closed in the very operation that empties the participant set; and the
empty-implies-Closed invariant is preserved by every store operation that
does not itself install an empty-but-open record (creates with a non-empty
participant list; updates that keep a non-empty list or only close/touch). -/
theorem empty_conversation_closed (st : MemStore) (rs : RedisStore) (cid did : String)
    (now : Int) (op : MemStoreOp) :
    ((mem_remove_participant st cid did now).1 = true →
      ∀ rec', alookup (mem_remove_participant st cid did now).2 cid = some rec' →
        rec'.participants = [] → rec'.state = .closed) ∧
    ((redis_remove_participant rs cid did now).1 = true →
      ∀ e', alookup (redis_remove_participant rs cid did now).2.entries cid = some e' →
        e'.record.participants = [] → e'.record.state = .closed) ∧
    (empty_closed st → op.benign → empty_closed (op.apply st)) := by
  refine ⟨?_, ?_, ?_⟩
  · intro hok rec' hrec hemp
    cases hlk : alookup st cid with
    | none => simp [mem_remove_participant, hlk] at hok
    | some conv =>
      by_cases hmem : did ∈ conv.participants.dedup
      · by_cases hfe : conv.participants.dedup.filter (fun r => r ≠ did) = []
        · rw [show (mem_remove_participant st cid did now).2 = ainsert st cid { conv with participants := conv.participants.dedup.filter (fun r => r ≠ did), state := .closed, last_activity_at := now } by simp only [mem_remove_participant, hlk]; rw [if_pos hmem, if_pos hfe]] at hrec
          rw [alookup_ainsert_self] at hrec
          cases Option.some_inj.mp hrec
          rfl
        · rw [show (mem_remove_participant st cid did now).2 = ainsert st cid { conv with participants := conv.participants.dedup.filter (fun r => r ≠ did), last_activity_at := now } by simp only [mem_remove_participant, hlk]; rw [if_pos hmem, if_neg hfe]] at hrec
          rw [alookup_ainsert_self] at hrec
          cases Option.some_inj.mp hrec
          exact absurd hemp hfe
      · simp [mem_remove_participant, hlk, hmem] at hok
  · intro hok e' hrec hemp
    cases hlk : alookup rs.entries cid with
    | none => simp [redis_remove_participant, hlk] at hok
    | some e =>
      by_cases hmem : did ∈ e.record.participants.dedup
      · by_cases hfe : e.record.participants.dedup.filter (fun r => r ≠ did) = []
        · rw [show (redis_remove_participant rs cid did now).2.entries = ainsert rs.entries cid { record := { e.record with participants := e.record.participants.dedup.filter (fun r => r ≠ did), state := .closed, last_activity_at := now }, ttl := redis_norm_ttl rs.ttl_seconds e.ttl } by simp only [redis_remove_participant, hlk]; rw [if_pos hmem, if_pos hfe]] at hrec
          rw [alookup_ainsert_self] at hrec
          cases Option.some_inj.mp hrec
          rfl
        · rw [show (redis_remove_participant rs cid did now).2.entries = ainsert rs.entries cid { record := { e.record with participants := e.record.participants.dedup.filter (fun r => r ≠ did), last_activity_at := now }, ttl := redis_norm_ttl rs.ttl_seconds e.ttl } by simp only [redis_remove_participant, hlk]; rw [if_pos hmem, if_neg hfe]] at hrec
          rw [alookup_ainsert_self] at hrec
          cases Option.some_inj.mp hrec
          exact absurd hemp hfe
      · simp [redis_remove_participant, hlk, hmem] at hok
  · intro hinv hbenign cid0 rec hrec hemp
    cases op with
    | create c ps state n =>
      cases hlk : alookup st c with
      | some x =>
        rw [show (MemStoreOp.apply st (.create c ps state n)) = st by simp [MemStoreOp.apply, mem_create_conversation, hlk]] at hrec
        exact hinv cid0 rec hrec hemp
      | none =>
        rw [show (MemStoreOp.apply st (.create c ps state n)) = ainsert st c { conversation_id := c, participants := ps, state := state, created_at := n, last_activity_at := n } by simp [MemStoreOp.apply, mem_create_conversation, hlk]] at hrec
        rcases lookup_ainsert_cases _ _ _ _ _ hrec with hnew | hold
        · subst hnew
          exact absurd hemp hbenign
        · exact hinv cid0 rec hold hemp
    | update c ps state n =>
      cases hlk : alookup st c with
      | none =>
        rw [show (MemStoreOp.apply st (.update c ps state n)) = st by simp [MemStoreOp.apply, mem_update_conversation, hlk]] at hrec
        exact hinv cid0 rec hrec hemp
      | some conv =>
        rw [show (MemStoreOp.apply st (.update c ps state n)) = ainsert st c { apply_state_field (apply_participants conv ps) state with last_activity_at := n } by simp [MemStoreOp.apply, mem_update_conversation, hlk]] at hrec
        rcases lookup_ainsert_cases _ _ _ _ _ hrec with hnew | hold
        · subst hnew
          obtain ⟨hps, hst⟩ := hbenign
          cases ps with
          | some l =>
            have hl : l = [] := by
              cases state with
              | none => simpa [apply_participants, apply_state_field] using hemp
              | some s => simpa [apply_participants, apply_state_field] using hemp
            exact absurd (by rw [hl]) hps
          | none =>
            have hconv : conv.participants = [] → conv.state = .closed := hinv c conv hlk
            rcases hst rfl with h0 | h0
            · subst h0
              have hce : conv.participants = [] := by
                simpa [apply_participants, apply_state_field] using hemp
              simpa [apply_participants, apply_state_field] using hconv hce
            · subst h0
              simp [apply_participants, apply_state_field]
        · exact hinv cid0 rec hold hemp
    | add c d n =>
      cases hlk : alookup st c with
      | none =>
        rw [show (MemStoreOp.apply st (.add c d n)) = st by simp [MemStoreOp.apply, mem_add_participant, hlk]] at hrec
        exact hinv cid0 rec hrec hemp
      | some conv =>
        by_cases hmem : d ∈ conv.participants.dedup
        · rw [show (MemStoreOp.apply st (.add c d n)) = st by simp [MemStoreOp.apply, mem_add_participant, hlk, hmem]] at hrec
          exact hinv cid0 rec hrec hemp
        · by_cases hcap : conv.participants.dedup.length ≥ 50
          · rw [show (MemStoreOp.apply st (.add c d n)) = st by simp [MemStoreOp.apply, mem_add_participant, hlk, hmem, hcap]] at hrec
            exact hinv cid0 rec hrec hemp
          · rw [show (MemStoreOp.apply st (.add c d n)) = ainsert st c { conv with participants := conv.participants.dedup ++ [d], last_activity_at := n } by simp [MemStoreOp.apply, mem_add_participant, hlk, hmem, hcap]] at hrec
            rcases lookup_ainsert_cases _ _ _ _ _ hrec with hnew | hold
            · subst hnew
              simp at hemp
            · exact hinv cid0 rec hold hemp
    | remove c d n =>
      cases hlk : alookup st c with
      | none =>
        rw [show (MemStoreOp.apply st (.remove c d n)) = st by simp [MemStoreOp.apply, mem_remove_participant, hlk]] at hrec
        exact hinv cid0 rec hrec hemp
      | some conv =>
        by_cases hmem : d ∈ conv.participants.dedup
        · by_cases hfe : conv.participants.dedup.filter (fun r => r ≠ d) = []
          · rw [show (MemStoreOp.apply st (.remove c d n)) = ainsert st c { conv with participants := conv.participants.dedup.filter (fun r => r ≠ d), state := .closed, last_activity_at := n } by simp only [MemStoreOp.apply, mem_remove_participant, hlk]; rw [if_pos hmem, if_pos hfe]] at hrec
            rcases lookup_ainsert_cases _ _ _ _ _ hrec with hnew | hold
            · subst hnew
              rfl
            · exact hinv cid0 rec hold hemp
          · rw [show (MemStoreOp.apply st (.remove c d n)) = ainsert st c { conv with participants := conv.participants.dedup.filter (fun r => r ≠ d), last_activity_at := n } by simp only [MemStoreOp.apply, mem_remove_participant, hlk]; rw [if_pos hmem, if_neg hfe]] at hrec
            rcases lookup_ainsert_cases _ _ _ _ _ hrec with hnew | hold
            · subst hnew
              exact absurd hemp hfe
            · exact hinv cid0 rec hold hemp
        · rw [show (MemStoreOp.apply st (.remove c d n)) = st by simp [MemStoreOp.apply, mem_remove_participant, hlk, hmem]] at hrec
          exact hinv cid0 rec hrec hemp
    | del c =>
      by_cases hex : (alookup st c).isSome
      · rw [show (MemStoreOp.apply st (.del c)) = aerase st c by simp [MemStoreOp.apply, mem_delete_conversation, hex]] at hrec
        exact hinv cid0 rec (alookup_aerase_some _ _ _ _ hrec) hemp
      · rw [show (MemStoreOp.apply st (.del c)) = st by simp [MemStoreOp.apply, mem_delete_conversation, hex]] at hrec
        exact hinv cid0 rec hrec hemp

/-- C5 counterexample: a single store operation — `create_conversation` with
an empty participant list and Active state — yields a conversation whose
participant set is empty but whose state is Active, not Closed. -/
theorem empty_active_counterexample :
    (mem_create_conversation [] "c1" [] .active 0).1 = true ∧
    alookup (mem_create_conversation [] "c1" [] .active 0).2 "c1" =
      some { conversation_id := "c1", participants := [], state := .active, created_at := 0, last_activity_at := 0 } ∧
    ConvState.active ≠ ConvState.closed := by
  refine ⟨rfl, by decide, by decide⟩

def mem_store_sample : MemStore :=
  [("c1", { conversation_id := "c1", participants := ["A"], state := .active, created_at := 0, last_activity_at := 0 })]

def redis_store_sample : RedisStore :=
  { ttl_seconds := 1800
    entries := [("c1", { record := { conversation_id := "c1", participants := ["A"], state := .active, created_at := 0, last_activity_at := 0 }, ttl := 600 })] }

theorem mem_store_sample_inv : empty_closed mem_store_sample := by
  intro cid rec h hemp
  simp only [mem_store_sample, alookup] at h
  split at h
  · cases Option.some_inj.mp h
    cases hemp
  · cases h

theorem empty_conversation_closed_witness :
    ((mem_remove_participant mem_store_sample "c1" "A" 3).1 = true →
      ∀ rec', alookup (mem_remove_participant mem_store_sample "c1" "A" 3).2 "c1" = some rec' →
        rec'.participants = [] → rec'.state = .closed) ∧
    ((redis_remove_participant redis_store_sample "c1" "A" 3).1 = true →
      ∀ e', alookup (redis_remove_participant redis_store_sample "c1" "A" 3).2.entries "c1" = some e' →
        e'.record.participants = [] → e'.record.state = .closed) ∧
    empty_closed (MemStoreOp.apply mem_store_sample (.remove "c1" "A" 3)) :=
  ⟨(empty_conversation_closed mem_store_sample redis_store_sample "c1" "A" 3 (.remove "c1" "A" 3)).1,
   (empty_conversation_closed mem_store_sample redis_store_sample "c1" "A" 3 (.remove "c1" "A" 3)).2.1,
   (empty_conversation_closed mem_store_sample redis_store_sample "c1" "A" 3 (.remove "c1" "A" 3)).2.2
     mem_store_sample_inv trivial⟩

/-! ### src/backend/logging_service.py -/

/-- JSON-ish event-data values; only string-ness and string length are ever
inspected by the validator. -/
inductive EventValue : Type
  | str (s : String)
  | int (n : Int)
deriving DecidableEq

def is_long_string : EventValue → Bool
  | .str s => s.length > 1000
  | .int _ => false

/-- The prohibited key substrings exactly as listed in
`LoggingService._validate_event_data`. -/
def prohibited_keys_src : List String :=
  ["content", "plaintext", "message_content", "payload", "encrypted_payload",
   "key", "private_key", "secret", "password"]

/-- The six substrings the specification names. -/
def prohibited_keys_claim : List String :=
  ["content", "plaintext", "payload", "key", "secret", "password"]

/-- Python `any(prohibited in key.lower() for prohibited in prohibited_keys)`. -/
def key_prohibited (key : String) : Bool :=
  prohibited_keys_src.any (fun pat => substr_at_any pat.toList (str_lower key))

/-- `_validate_event_data`: prohibited-key scan first, then oversized string
values; raising `ValueError` is the `some` result. -/
def validate_event_data (data : List (String × EventValue)) : Option String :=
  if data.any (fun kv => key_prohibited kv.1) then some "prohibited key"
  else if data.any (fun kv => is_long_string kv.2) then some "value exceeds 1000 characters"
  else none

structure LogEvent : Type where
  event_type : String
  event_data : List (String × EventValue)
  classification : String
  timestamp : Int
deriving DecidableEq

structure AuditEvent : Type where
  event_id : Nat
  event_type : String
  event_data : List (String × EventValue)
  actor_id : Option String
  timestamp : Int
deriving DecidableEq

/-- The two in-memory sinks; uuid4 event ids are determinised as a counter. -/
structure LoggingState : Type where
  logs : List LogEvent
  audit_events : List AuditEvent
  next_event_id : Nat
deriving DecidableEq

/-- `log_event`: validate, then append to the operational buffer. -/
def log_event (st : LoggingState) (event_type : String)
    (event_data : List (String × EventValue)) (classification : String) (now : Int) :
    Option String × LoggingState :=
  match validate_event_data event_data with
  | some e => (some e, st)
  | none =>
      (none, { st with logs := st.logs ++
        [{ event_type := event_type, event_data := event_data, classification := classification, timestamp := now }] })

/-- `log_audit_event`: validate, then append to the audit buffer. -/
def log_audit_event (st : LoggingState) (event_type : String)
    (event_data : List (String × EventValue)) (actor_id : Option String) (now : Int) :
    Option String × LoggingState :=
  match validate_event_data event_data with
  | some e => (some e, st)
  | none =>
      (none, { st with
        audit_events := st.audit_events ++
          [{ event_id := st.next_event_id, event_type := event_type, event_data := event_data, actor_id := actor_id, timestamp := now }],
        next_event_id := st.next_event_id + 1 })

/-- The violation condition exactly as the specification states it: some
key's lowercase name contains one of the six named substrings, or some
string value exceeds 1000 characters. -/
def claim_violation (data : List (String × EventValue)) : Prop :=
  (∃ kv ∈ data, ∃ pat ∈ prohibited_keys_claim,
     substr_at_any pat.toList (str_lower kv.1) = true) ∨
  (∃ kv ∈ data, is_long_string kv.2 = true)

instance (data : List (String × EventValue)) : Decidable (claim_violation data) := by
  unfold claim_violation
  infer_instance

theorem substr_at_any_trans (pat1 pat2 hay : List Char) (h12 : pat1 <:+: pat2)
    (h : substr_at_any pat2 hay = true) : substr_at_any pat1 hay = true := by
  rw [substr_at_any_iff] at h ⊢
  exact h12.trans h

/-- The nine code substrings detect exactly what the six spec substrings
detect: the three extra entries each contain one of the six. -/
theorem key_prohibited_iff (key : String) :
    key_prohibited key = true ↔
      ∃ pat ∈ prohibited_keys_claim, substr_at_any pat.toList (str_lower key) = true := by
  constructor
  · intro h
    obtain ⟨pat, hpat, hsub⟩ := List.any_eq_true.mp h
    simp only [prohibited_keys_src, List.mem_cons, List.not_mem_nil, or_false] at hpat
    rcases hpat with h0 | h0 | h0 | h0 | h0 | h0 | h0 | h0 | h0 <;> subst h0
    · exact ⟨"content", by decide, hsub⟩
    · exact ⟨"plaintext", by decide, hsub⟩
    · exact ⟨"content", by decide,
        substr_at_any_trans _ "message_content".toList _ (by decide) hsub⟩
    · exact ⟨"payload", by decide, hsub⟩
    · exact ⟨"payload", by decide,
        substr_at_any_trans _ "encrypted_payload".toList _ (by decide) hsub⟩
    · exact ⟨"key", by decide, hsub⟩
    · exact ⟨"key", by decide,
        substr_at_any_trans _ "private_key".toList _ (by decide) hsub⟩
    · exact ⟨"secret", by decide, hsub⟩
    · exact ⟨"password", by decide, hsub⟩
  · intro ⟨pat, hpat, hsub⟩
    refine List.any_eq_true.mpr ⟨pat, ?_, hsub⟩
    simp only [prohibited_keys_claim, List.mem_cons, List.not_mem_nil, or_false] at hpat
    rcases hpat with h0 | h0 | h0 | h0 | h0 | h0 <;> subst h0 <;> decide

theorem validate_event_data_iff (data : List (String × EventValue)) :
    (validate_event_data data).isSome ↔ claim_violation data := by
  unfold validate_event_data claim_violation
  by_cases h1 : data.any (fun kv => key_prohibited kv.1)
  · rw [if_pos h1]
    simp only [Option.isSome_some, true_iff]
    obtain ⟨kv, hkv, hp⟩ := List.any_eq_true.mp h1
    obtain ⟨pat, hpat, hsub⟩ := (key_prohibited_iff kv.1).mp hp
    exact Or.inl ⟨kv, hkv, pat, hpat, hsub⟩
  · rw [if_neg h1]
    by_cases h2 : data.any (fun kv => is_long_string kv.2)
    · rw [if_pos h2]
      simp only [Option.isSome_some, true_iff]
      obtain ⟨kv, hkv, hl⟩ := List.any_eq_true.mp h2
      exact Or.inr ⟨kv, hkv, hl⟩
    · rw [if_neg h2]
      simp only [Option.isSome_none, Bool.false_eq_true, false_iff]
      rintro (⟨kv, hkv, pat, hpat, hsub⟩ | ⟨kv, hkv, hl⟩)
      · exact h1 (List.any_eq_true.mpr
          ⟨kv, hkv, (key_prohibited_iff kv.1).mpr ⟨pat, hpat, hsub⟩⟩)
      · exact h2 (List.any_eq_true.mpr ⟨kv, hkv, hl⟩)

/-- C8: `log_event`/`log_audit_event` raise exactly when some key's lowercase
name contains one of content, plaintext, payload, key, secret, password, or
some string value exceeds 1000 characters; on a violation neither buffer
changes, otherwise the event is appended to the respective buffer. -/
theorem logging_content_free_schema (st : LoggingState) (event_type : String)
    (data : List (String × EventValue)) (classification : String)
    (actor_id : Option String) (now : Int) :
    ((log_event st event_type data classification now).1.isSome ↔ claim_violation data) ∧
    ((log_audit_event st event_type data actor_id now).1.isSome ↔ claim_violation data) ∧
    (claim_violation data →
      (log_event st event_type data classification now).2 = st ∧
      (log_audit_event st event_type data actor_id now).2 = st) ∧
    (¬ claim_violation data →
      (log_event st event_type data classification now).2.logs =
        st.logs ++ [{ event_type := event_type, event_data := data, classification := classification, timestamp := now }] ∧
      (log_event st event_type data classification now).2.audit_events = st.audit_events ∧
      (log_audit_event st event_type data actor_id now).2.audit_events =
        st.audit_events ++ [{ event_id := st.next_event_id, event_type := event_type, event_data := data, actor_id := actor_id, timestamp := now }] ∧
      (log_audit_event st event_type data actor_id now).2.logs = st.logs) := by
  cases hv : validate_event_data data with
  | some e =>
    have hviol : claim_violation data := by
      rw [← validate_event_data_iff, hv]
      rfl
    refine ⟨?_, ?_, ?_, ?_⟩
    · simp [log_event, hv, hviol]
    · simp [log_audit_event, hv, hviol]
    · intro _
      exact ⟨by simp [log_event, hv], by simp [log_audit_event, hv]⟩
    · intro hc
      exact absurd hviol hc
  | none =>
    have hviol : ¬ claim_violation data := by
      rw [← validate_event_data_iff, hv]
      simp
    refine ⟨?_, ?_, ?_, ?_⟩
    · simp [log_event, hv, hviol]
    · simp [log_audit_event, hv, hviol]
    · intro hc
      exact absurd hc hviol
    · intro _
      refine ⟨?_, ?_, ?_, ?_⟩ <;> simp [log_event, log_audit_event, hv]

/-- Fresh logging sink for witness instantiation. -/
def log_state_sample : LoggingState :=
  { logs := [], audit_events := [], next_event_id := 0 }

theorem logging_content_free_schema_witness :
    (claim_violation [("plaintext_content", EventValue.str "hi")] ∧
      (log_event log_state_sample "message_attempted" [("plaintext_content", EventValue.str "hi")] "internal" 1).2 = log_state_sample) ∧
    (¬ claim_violation [("message_id", EventValue.str "m1")] ∧
      (log_event log_state_sample "message_attempted" [("message_id", EventValue.str "m1")] "internal" 1).2.logs =
        [] ++ [{ event_type := "message_attempted", event_data := [("message_id", EventValue.str "m1")], classification := "internal", timestamp := 1 }]) :=
  ⟨⟨by decide,
    ((logging_content_free_schema log_state_sample "message_attempted"
        [("plaintext_content", EventValue.str "hi")] "internal" none 1).2.2.1 (by decide)).1⟩,
   ⟨by decide,
    ((logging_content_free_schema log_state_sample "message_attempted"
        [("message_id", EventValue.str "m1")] "internal" none 1).2.2.2 (by decide)).1⟩⟩

/-! ### src/backend/conversation_registry.py, controller_auth.py,
identity_enforcement.py (revocation path) -/

/-- The derived reverse index `device → conversations` (`set` values are
lists with set semantics). -/
abbrev Cache : Type := List (String × List String)

def cache_get (cache : Cache) (d : String) : List String :=
  (alookup cache d).getD []

/-- `self._participant_conversations[pid].add(cid)` with defaulting. -/
def cache_add (cache : Cache) (d cid : String) : Cache :=
  match alookup cache d with
  | none => ainsert cache d [cid]
  | some s => ainsert cache d (if cid ∈ s then s else s ++ [cid])

/-- Discard one conversation from one device's entry, deleting the entry
when it empties. -/
def cache_discard : Cache → String → String → Cache
  | [], _, _ => []
  | kv :: rest, d, cid =>
      if kv.1 = d then
        if kv.2.filter (fun c => c ≠ cid) = [] then cache_discard rest d cid
        else (kv.1, kv.2.filter (fun c => c ≠ cid)) :: cache_discard rest d cid
      else kv :: cache_discard rest d cid

/-- `_invalidate_participant_cache_for_conversation`: drop the conversation
from every entry, deleting entries that empty. -/
def cache_invalidate_conv : Cache → String → Cache
  | [], _ => []
  | kv :: rest, cid =>
      if kv.2.filter (fun c => c ≠ cid) = [] then cache_invalidate_conv rest cid
      else (kv.1, kv.2.filter (fun c => c ≠ cid)) :: cache_invalidate_conv rest cid

/-- The loop body of `handle_participant_revocation` over the snapshot of the
revoked device's reverse-index entry; each existing conversation goes through
`ConversationRegistry.remove_participant` (the store call, plus the cache
discard on success), a vanished one is silently invalidated from the cache. -/
def hpr_loop (did : String) (now : Int) :
    List String → MemStore → Cache → List String → List String × MemStore × Cache
  | [], store, cache, acc => (acc, store, cache)
  | c :: rest, store, cache, acc =>
      if mem_conversation_exists store c then
        if (mem_remove_participant store c did now).1 then
          hpr_loop did now rest (mem_remove_participant store c did now).2
            (cache_discard cache did c) (acc ++ [c])
        else
          hpr_loop did now rest (mem_remove_participant store c did now).2 cache acc
      else
        hpr_loop did now rest store (cache_invalidate_conv cache c) acc

def handle_participant_revocation (store : MemStore) (cache : Cache) (did : String)
    (now : Int) : List String × MemStore × Cache :=
  hpr_loop did now (cache_get cache did) store cache []

/-- `ConversationRegistry.is_conversation_active`. -/
def is_conversation_active (store : MemStore) (cid : String) : Bool :=
  match alookup store cid with
  | some conv => conv.state = .active
  | none => false

/-- `IdentityEnforcementService.handle_revocation_impact`: counts of affected
and since-closed conversations, plus the mutated store and cache. -/
def handle_revocation_impact (store : MemStore) (cache : Cache) (did : String)
    (now : Int) : (Nat × Nat) × MemStore × Cache :=
  let r := handle_participant_revocation store cache did now
  ((r.1.length, (r.1.filter (fun c => ¬ is_conversation_active r.2.1 c)).length),
    r.2.1, r.2.2)

/-- `ConversationRegistry.get_conversation_participants`: always reads the
store, refreshing the reverse index on hit and invalidating it on miss. -/
def get_conversation_participants (store : MemStore) (cache : Cache) (cid : String) :
    List String × Cache :=
  match alookup store cid with
  | some conv =>
      (conv.participants.dedup,
        conv.participants.dedup.foldl (fun cc pid => cache_add cc pid cid) cache)
  | none => ([], cache_invalidate_conv cache cid)

/-- `ControllerAuthService.validate_controller_key`. -/
def validate_controller_key (valid_keys : List String) (api_key : Option String) : Bool :=
  match api_key with
  | none => false
  | some k => if k = "" then false else valid_keys.contains k

/-! ### Claim C7: src/backend/conversation_api.py get_conversation_info -/

inductive InfoResponse : Type
  | err (error_code : Nat)
  | info (state : ConvState) (participants : List String) (participant_count : Nat)
      (is_participant : Bool)
deriving DecidableEq

/-- `ConversationService.get_conversation_info`: 404 when the participant set
comes back empty, then the permission gate `is_participant or is_revoked`,
where the source computes `is_revoked` as `not is_device_active(device_id)`. -/
def get_conversation_info (reg : DeviceRegistry) (store : MemStore) (cache : Cache)
    (device_id conversation_id : String) (now : Int) : InfoResponse × Cache :=
  let gp := get_conversation_participants store cache conversation_id
  if gp.1 = [] then (.err 404, gp.2)
  else
    if device_id ∉ gp.1 ∧ ¬ (¬ reg.is_device_active device_id now) then (.err 403, gp.2)
    else
      (.info (if is_conversation_active store conversation_id then .active else .closed)
        gp.1 gp.1.length (decide (device_id ∈ gp.1)), gp.2)

/-- A Pending device, unknown to every conversation. -/
def dev_pending_sample : DeviceIdentity :=
  { device_id := "P"
    state := .pending
    public_key := "pk"
    created_at := 0
    last_key_rotation := 0
    next_key_rotation := some ninety_days }

def reg_pending_sample : DeviceRegistry :=
  { demo_mode := false
    devices := [("P", dev_pending_sample)]
    device_last_seen := [] }

/-- C7 (bug evidence): a Pending device that is not a participant is granted
the conversation data, because the handler treats every non-active device —
not only Revoked ones — as "revoked" for the neutral read mode, contradicting
its own docstring ("Only participants or revoked devices may view"). -/
theorem conversation_info_access_bug :
    dev_pending_sample.state = .pending ∧
    reg_pending_sample.is_device_active "P" 1 = false ∧
    "P" ∉ (mem_store_sample.head?.map (fun kv => kv.2.participants)).getD [] ∧
    (get_conversation_info reg_pending_sample mem_store_sample [] "P" "c1" 1).1 =
      .info .active ["A"] 1 false := by
  refine ⟨rfl, by decide, by decide, by decide⟩

/-! ### Claim C6: src/backend/controller_api.py revoke_device -/

/-- The process-wide state the revoke endpoint touches. -/
structure SysState : Type where
  valid_keys : List String
  registry : DeviceRegistry
  store : MemStore
  cache : Cache
  logs : LoggingState
deriving DecidableEq

inductive RevokeResponse : Type
  | err (code : Nat)
  | revoked (affected_conversations conversations_closed : Nat)
deriving DecidableEq

def RevokeResponse.status_code : RevokeResponse → Nat
  | .err c => c
  | .revoked _ _ => 200

/-- `ControllerAPIService.revoke_device` (station-wagon of 4.A, 4.H and the
audit log): auth, request validation, 404, the idempotent already-revoked
branch, then registry revocation, revocation impact and the audit event. -/
def revoke_device_endpoint (s : SysState) (device_id : String)
    (controller_key : Option String) (now : Int) : RevokeResponse × SysState :=
  if ¬ validate_controller_key s.valid_keys controller_key then (.err 401, s)
  else if device_id = "" then (.err 400, s)
  else
    match alookup s.registry.devices device_id with
    | none => (.err 404, s)
    | some dev =>
      if dev.is_revoked then
        let r := handle_revocation_impact s.store s.cache device_id now
        (.revoked r.1.1 r.1.2, { s with store := r.2.1, cache := r.2.2 })
      else
        let rv := s.registry.revoke_device device_id now
        if ¬ rv.1 then (.err 500, s)
        else
          let r := handle_revocation_impact s.store s.cache device_id now
          let lg := log_audit_event s.logs "device_revoked"
            [("state", .str "revoked"), ("controller_operation", .str "revoke"),
             ("affected_conversations", .int r.1.1), ("conversations_closed", .int r.1.2)]
            (some device_id) now
          (.revoked r.1.1 r.1.2,
            { s with registry := rv.2, store := r.2.1, cache := r.2.2, logs := lg.2 })

/-- The audit payload of a revocation always passes the content-free schema,
whatever the two counters are. -/
theorem revoke_audit_event_validates (a b : Int) :
    validate_event_data
      [("state", .str "revoked"), ("controller_operation", .str "revoke"),
       ("affected_conversations", .int a), ("conversations_closed", .int b)] = none := by
  rfl

theorem alookup_none_of_not_mem_keys {α : Type} (l : List (String × α)) (k : String)
    (h : k ∉ l.map Prod.fst) : alookup l k = none := by
  induction l with
  | nil => rfl
  | cons p rest ih =>
    simp only [List.map_cons, List.mem_cons] at h
    push_neg at h
    simp only [alookup]
    rw [if_neg (Ne.symm h.1)]
    exact ih h.2

/-- Python-dict well-formedness of the reverse index: one entry per device. -/
def cache_keys_nodup (cache : Cache) : Prop := (cache.map Prod.fst).Nodup

theorem cache_get_cons (kv : String × List String) (rest : Cache) (d : String) :
    cache_get (kv :: rest) d = if kv.1 = d then kv.2 else cache_get rest d := by
  by_cases h : kv.1 = d <;> simp [cache_get, alookup, h]

theorem cache_get_of_no_key (cache : Cache) (d : String) (h : d ∉ cache.map Prod.fst) :
    cache_get cache d = [] := by
  simp [cache_get, alookup_none_of_not_mem_keys _ _ h]

theorem cache_discard_keys_sublist (cache : Cache) (d cid : String) :
    List.Sublist ((cache_discard cache d cid).map Prod.fst) (cache.map Prod.fst) := by
  induction cache with
  | nil => exact List.Sublist.refl _
  | cons kv rest ih =>
    simp only [cache_discard]
    by_cases hk : kv.1 = d
    · rw [if_pos hk]
      by_cases hfe : kv.2.filter (fun c => c ≠ cid) = []
      · rw [if_pos hfe]
        exact ih.cons _
      · rw [if_neg hfe]
        exact ih.cons₂ _
    · rw [if_neg hk]
      exact ih.cons₂ _

theorem cache_invalidate_keys_sublist (cache : Cache) (cid : String) :
    List.Sublist ((cache_invalidate_conv cache cid).map Prod.fst) (cache.map Prod.fst) := by
  induction cache with
  | nil => exact List.Sublist.refl _
  | cons kv rest ih =>
    simp only [cache_invalidate_conv]
    by_cases hfe : kv.2.filter (fun c => c ≠ cid) = []
    · rw [if_pos hfe]
      exact ih.cons _
    · rw [if_neg hfe]
      exact ih.cons₂ _

theorem cache_discard_nodup (cache : Cache) (d cid : String) (h : cache_keys_nodup cache) :
    cache_keys_nodup (cache_discard cache d cid) :=
  h.sublist (cache_discard_keys_sublist cache d cid)

theorem cache_invalidate_nodup (cache : Cache) (cid : String) (h : cache_keys_nodup cache) :
    cache_keys_nodup (cache_invalidate_conv cache cid) :=
  h.sublist (cache_invalidate_keys_sublist cache cid)

theorem cache_get_discard (cache : Cache) (d cid : String) (hnd : cache_keys_nodup cache) :
    cache_get (cache_discard cache d cid) d = (cache_get cache d).filter (fun c => c ≠ cid) := by
  induction cache with
  | nil => rfl
  | cons kv rest ih =>
    obtain ⟨hhead, hrest⟩ := List.nodup_cons.mp hnd
    simp only [cache_discard]
    by_cases hk : kv.1 = d
    · have hdr : d ∉ rest.map Prod.fst := hk ▸ hhead
      have hdr' : d ∉ (cache_discard rest d cid).map Prod.fst := fun hm =>
        hdr ((cache_discard_keys_sublist rest d cid).subset hm)
      rw [if_pos hk, cache_get_cons, if_pos hk]
      by_cases hfe : kv.2.filter (fun c => c ≠ cid) = []
      · rw [if_pos hfe, cache_get_of_no_key _ d hdr', hfe]
      · rw [if_neg hfe, cache_get_cons, if_pos hk]
    · rw [if_neg hk, cache_get_cons, if_neg hk, cache_get_cons, if_neg hk]
      exact ih hrest

theorem cache_get_invalidate (cache : Cache) (cid d : String) (hnd : cache_keys_nodup cache) :
    cache_get (cache_invalidate_conv cache cid) d =
      (cache_get cache d).filter (fun c => c ≠ cid) := by
  induction cache with
  | nil => rfl
  | cons kv rest ih =>
    obtain ⟨hhead, hrest⟩ := List.nodup_cons.mp hnd
    simp only [cache_invalidate_conv]
    by_cases hk : kv.1 = d
    · have hdr : d ∉ rest.map Prod.fst := hk ▸ hhead
      have hdr' : d ∉ (cache_invalidate_conv rest cid).map Prod.fst := fun hm =>
        hdr ((cache_invalidate_keys_sublist rest cid).subset hm)
      rw [cache_get_cons, if_pos hk]
      by_cases hfe : kv.2.filter (fun c => c ≠ cid) = []
      · rw [if_pos hfe, cache_get_of_no_key _ d hdr', hfe]
      · rw [if_neg hfe, cache_get_cons, if_pos hk]
    · rw [cache_get_cons, if_neg hk]
      by_cases hfe : kv.2.filter (fun c => c ≠ cid) = []
      · rw [if_pos hfe]
        exact ih hrest
      · rw [if_neg hfe, cache_get_cons, if_neg hk]
        exact ih hrest

/-- The revoked device is no longer (or never was) a member of conversation
`c` as stored. -/
def conv_clean (store : MemStore) (did c : String) : Prop :=
  ∀ rec, alookup store c = some rec → did ∉ rec.participants.dedup

theorem mem_remove_fail_clean (store : MemStore) (c did : String) (now : Int)
    (rec : ConvRecord) (hlk : alookup store c = some rec)
    (hnm : did ∉ rec.participants.dedup) :
    mem_remove_participant store c did now = (false, store) := by
  simp [mem_remove_participant, hlk, hnm]

theorem mem_remove_success_shape (store : MemStore) (c did : String) (now : Int)
    (rec : ConvRecord) (hlk : alookup store c = some rec)
    (hnm : did ∈ rec.participants.dedup) :
    ∃ rec', mem_remove_participant store c did now = (true, ainsert store c rec') := by
  unfold mem_remove_participant
  rw [hlk]
  simp only
  rw [if_pos hnm]
  by_cases hfe : rec.participants.dedup.filter (fun r => r ≠ did) = []
  · exact ⟨_, by rw [if_pos hfe]⟩
  · exact ⟨_, by rw [if_neg hfe]⟩

theorem hpr_loop_noop (did : String) (now : Int) (ids : List String) (store : MemStore) :
    ∀ (cache : Cache) (acc : List String),
      (∀ c ∈ ids, conv_clean store did c) →
      (hpr_loop did now ids store cache acc).2.1 = store ∧
      (hpr_loop did now ids store cache acc).1 = acc := by
  induction ids with
  | nil =>
    intro cache acc _
    exact ⟨rfl, rfl⟩
  | cons c rest ih =>
    intro cache acc h
    by_cases hex : mem_conversation_exists store c
    · cases hlk : alookup store c with
      | none => simp [mem_conversation_exists, hlk] at hex
      | some rec =>
        have hnm : did ∉ rec.participants.dedup := h c (by simp) rec hlk
        have hfail := mem_remove_fail_clean store c did now rec hlk hnm
        rw [show hpr_loop did now (c :: rest) store cache acc =
            hpr_loop did now rest store cache acc from by simp [hpr_loop, hex, hfail]]
        exact ih cache acc (fun c' hc' => h c' (List.mem_cons_of_mem _ hc'))
    · rw [show hpr_loop did now (c :: rest) store cache acc =
          hpr_loop did now rest store (cache_invalidate_conv cache c) acc from by
        simp [hpr_loop, hex]]
      exact ih _ acc (fun c' hc' => h c' (List.mem_cons_of_mem _ hc'))

theorem hpr_loop_establishes (did : String) (now : Int) :
    ∀ (ids : List String) (store : MemStore) (cache : Cache) (acc : List String),
      cache_keys_nodup cache →
      (∀ c ∈ cache_get cache did, c ∈ ids ∨ conv_clean store did c) →
      cache_keys_nodup (hpr_loop did now ids store cache acc).2.2 ∧
      (∀ c ∈ cache_get (hpr_loop did now ids store cache acc).2.2 did,
        conv_clean (hpr_loop did now ids store cache acc).2.1 did c) := by
  intro ids
  induction ids with
  | nil =>
    intro store cache acc hnd h
    refine ⟨hnd, ?_⟩
    intro c hc
    rcases h c hc with h0 | h0
    · exact absurd h0 (List.not_mem_nil c)
    · exact h0
  | cons c0 rest ih =>
    intro store cache acc hnd h
    by_cases hex : mem_conversation_exists store c0
    · cases hlk : alookup store c0 with
      | none => simp [mem_conversation_exists, hlk] at hex
      | some rec =>
        by_cases hnm : did ∈ rec.participants.dedup
        · obtain ⟨rec', hrm⟩ := mem_remove_success_shape store c0 did now rec hlk hnm
          rw [show hpr_loop did now (c0 :: rest) store cache acc =
              hpr_loop did now rest (ainsert store c0 rec') (cache_discard cache did c0)
                (acc ++ [c0]) from by simp [hpr_loop, hex, hrm]]
          apply ih
          · exact cache_discard_nodup _ _ _ hnd
          · intro c hc
            rw [cache_get_discard _ _ _ hnd] at hc
            have hc' := List.mem_filter.mp hc
            have hcc0 : c ≠ c0 := by simpa using hc'.2
            rcases h c hc'.1 with h0 | h0
            · rcases List.mem_cons.mp h0 with h1 | h1
              · exact absurd h1 hcc0
              · exact Or.inl h1
            · refine Or.inr ?_
              intro r hr
              rw [alookup_ainsert_ne _ _ _ _ (Ne.symm hcc0)] at hr
              exact h0 r hr
        · have hfail := mem_remove_fail_clean store c0 did now rec hlk hnm
          rw [show hpr_loop did now (c0 :: rest) store cache acc =
              hpr_loop did now rest store cache acc from by simp [hpr_loop, hex, hfail]]
          apply ih store cache acc hnd
          intro c hc
          rcases h c hc with h0 | h0
          · rcases List.mem_cons.mp h0 with h1 | h1
            · subst h1
              refine Or.inr ?_
              intro r hr
              rw [hlk] at hr
              cases Option.some_inj.mp hr
              exact hnm
            · exact Or.inl h1
          · exact Or.inr h0
    · cases hlk : alookup store c0 with
      | some r => exact absurd (by simp [mem_conversation_exists, hlk]) hex
      | none =>
        rw [show hpr_loop did now (c0 :: rest) store cache acc =
            hpr_loop did now rest store (cache_invalidate_conv cache c0) acc from by
          simp [hpr_loop, hex]]
        apply ih
        · exact cache_invalidate_nodup _ _ hnd
        · intro c hc
          rw [cache_get_invalidate _ _ _ hnd] at hc
          have hc' := List.mem_filter.mp hc
          have hcc0 : c ≠ c0 := by simpa using hc'.2
          rcases h c hc'.1 with h0 | h0
          · rcases List.mem_cons.mp h0 with h1 | h1
            · exact absurd h1 hcc0
            · exact Or.inl h1
          · exact Or.inr h0

theorem hri_establishes (store : MemStore) (cache : Cache) (did : String) (now : Int)
    (hnd : cache_keys_nodup cache) :
    cache_keys_nodup (handle_revocation_impact store cache did now).2.2 ∧
    (∀ c ∈ cache_get (handle_revocation_impact store cache did now).2.2 did,
      conv_clean (handle_revocation_impact store cache did now).2.1 did c) :=
  hpr_loop_establishes did now (cache_get cache did) store cache [] hnd
    (fun _ hc => Or.inl hc)

theorem hri_noop (store : MemStore) (cache : Cache) (did : String) (now : Int)
    (h : ∀ c ∈ cache_get cache did, conv_clean store did c) :
    (handle_revocation_impact store cache did now).2.1 = store :=
  (hpr_loop_noop did now (cache_get cache did) store cache [] h).1

theorem revoke_device_success (r : DeviceRegistry) (d : String) (now : Int)
    (hok : (r.revoke_device d now).1 = true) :
    ∃ dev', alookup (r.revoke_device d now).2.devices d = some dev' ∧
      dev'.state = .revoked := by
  cases hlk : alookup r.devices d with
  | none => simp [DeviceRegistry.revoke_device, hlk] at hok
  | some x =>
    cases hrv : x.is_revoked with
    | true => simp [DeviceRegistry.revoke_device, hlk, hrv] at hok
    | false =>
      cases htr : x.transition_to_revoked now true with
      | none => simp [DeviceRegistry.revoke_device, hlk, hrv, htr] at hok
      | some x' =>
        have hnr : x.state ≠ .revoked := by
          intro hc
          rw [DeviceIdentity.is_revoked, hc] at hrv
          simp at hrv
        obtain ⟨-, h2, -⟩ := transition_to_revoked_states _ _ _ hnr htr
        refine ⟨x', ?_, h2⟩
        rw [show (r.revoke_device d now).2.devices = ainsert r.devices d x' from by
          simp [DeviceRegistry.revoke_device, hlk, hrv, htr]]
        exact alookup_ainsert_self _ _ _

theorem revoke_endpoint_first (s : SysState) (d : String) (key : Option String) (now : Int)
    (hnd : cache_keys_nodup s.cache)
    (h200 : ((revoke_device_endpoint s d key now).1).status_code = 200) :
    validate_controller_key s.valid_keys key = true ∧
    d ≠ "" ∧
    (revoke_device_endpoint s d key now).2.valid_keys = s.valid_keys ∧
    (∃ dev', alookup (revoke_device_endpoint s d key now).2.registry.devices d = some dev' ∧
      dev'.state = .revoked) ∧
    cache_keys_nodup (revoke_device_endpoint s d key now).2.cache ∧
    (∀ c ∈ cache_get (revoke_device_endpoint s d key now).2.cache d,
      conv_clean (revoke_device_endpoint s d key now).2.store d c) := by
  by_cases hval : validate_controller_key s.valid_keys key
  · by_cases hd0 : d = ""
    · rw [show revoke_device_endpoint s d key now = (.err 400, s) from by
        simp [revoke_device_endpoint, hval, hd0]] at h200
      cases h200
    · cases hlk : alookup s.registry.devices d with
      | none =>
        rw [show revoke_device_endpoint s d key now = (.err 404, s) from by
          simp [revoke_device_endpoint, hval, hd0, hlk]] at h200
        simp [RevokeResponse.status_code] at h200
      | some dev =>
        cases hrv : dev.is_revoked with
        | true =>
          have hres : revoke_device_endpoint s d key now =
              (.revoked (handle_revocation_impact s.store s.cache d now).1.1
                  (handle_revocation_impact s.store s.cache d now).1.2,
                { s with store := (handle_revocation_impact s.store s.cache d now).2.1, cache := (handle_revocation_impact s.store s.cache d now).2.2 }) := by
            simp [revoke_device_endpoint, hval, hd0, hlk, hrv]
          rw [hres]
          have hst : dev.state = .revoked := by
            rw [DeviceIdentity.is_revoked] at hrv
            simpa using hrv
          obtain ⟨hnd', hclean⟩ := hri_establishes s.store s.cache d now hnd
          exact ⟨hval, hd0, rfl, ⟨dev, hlk, hst⟩, hnd', hclean⟩
        | false =>
          cases hok : (s.registry.revoke_device d now).1 with
          | false =>
            rw [show revoke_device_endpoint s d key now = (.err 500, s) from by
              simp [revoke_device_endpoint, hval, hd0, hlk, hrv, hok]] at h200
            simp [RevokeResponse.status_code] at h200
          | true =>
            have hres : revoke_device_endpoint s d key now =
                (.revoked (handle_revocation_impact s.store s.cache d now).1.1
                    (handle_revocation_impact s.store s.cache d now).1.2,
                  { s with registry := (s.registry.revoke_device d now).2, store := (handle_revocation_impact s.store s.cache d now).2.1, cache := (handle_revocation_impact s.store s.cache d now).2.2, logs := (log_audit_event s.logs "device_revoked" [("state", .str "revoked"), ("controller_operation", .str "revoke"), ("affected_conversations", .int (handle_revocation_impact s.store s.cache d now).1.1), ("conversations_closed", .int (handle_revocation_impact s.store s.cache d now).1.2)] (some d) now).2 }) := by
              simp [revoke_device_endpoint, hval, hd0, hlk, hrv, hok]
            rw [hres]
            obtain ⟨hnd', hclean⟩ := hri_establishes s.store s.cache d now hnd
            exact ⟨hval, hd0, rfl, revoke_device_success s.registry d now hok, hnd', hclean⟩
  · rw [show revoke_device_endpoint s d key now = (.err 401, s) from by
      simp [revoke_device_endpoint, hval]] at h200
    simp [RevokeResponse.status_code] at h200

theorem revoke_endpoint_second (s1 : SysState) (d : String) (key : Option String) (now : Int)
    (hval : validate_controller_key s1.valid_keys key = true)
    (hd0 : d ≠ "")
    (dev1 : DeviceIdentity)
    (hdev : alookup s1.registry.devices d = some dev1)
    (hrv : dev1.state = .revoked)
    (hclean : ∀ c ∈ cache_get s1.cache d, conv_clean s1.store d c) :
    ((revoke_device_endpoint s1 d key now).1).status_code = 200 ∧
    (revoke_device_endpoint s1 d key now).2.store = s1.store ∧
    (revoke_device_endpoint s1 d key now).2.registry = s1.registry := by
  have hrvb : dev1.is_revoked = true := by simp [DeviceIdentity.is_revoked, hrv]
  have hstore := hri_noop s1.store s1.cache d now hclean
  have hres : revoke_device_endpoint s1 d key now =
      (.revoked (handle_revocation_impact s1.store s1.cache d now).1.1
          (handle_revocation_impact s1.store s1.cache d now).1.2,
        { s1 with store := (handle_revocation_impact s1.store s1.cache d now).2.1, cache := (handle_revocation_impact s1.store s1.cache d now).2.2 }) := by
    simp [revoke_device_endpoint, hval, hd0, hdev, hrvb]
  rw [hres]
  exact ⟨rfl, hstore, rfl⟩

/-- C6: with a valid controller key, once a revoke call has returned 200, an
immediately following second revoke call on the same (now Revoked) device
also returns 200 and changes neither the device registry (hence not the
device's state) nor any conversation's stored record (hence no participant
set): revoke is idempotent at the API boundary. -/
theorem revoke_idempotent_at_api (s : SysState) (d : String) (key : Option String)
    (n1 n2 : Int) (hnd : cache_keys_nodup s.cache)
    (h200 : ((revoke_device_endpoint s d key n1).1).status_code = 200) :
    ((revoke_device_endpoint (revoke_device_endpoint s d key n1).2 d key n2).1).status_code
        = 200 ∧
    (revoke_device_endpoint (revoke_device_endpoint s d key n1).2 d key n2).2.store =
      (revoke_device_endpoint s d key n1).2.store ∧
    (revoke_device_endpoint (revoke_device_endpoint s d key n1).2 d key n2).2.registry =
      (revoke_device_endpoint s d key n1).2.registry := by
  obtain ⟨hval, hd0, hkeys, ⟨dev1, hdev, hrv⟩, hnd1, hclean⟩ :=
    revoke_endpoint_first s d key n1 hnd h200
  exact revoke_endpoint_second _ d key n2 (by rw [hkeys]; exact hval) hd0 dev1 hdev hrv hclean

instance (cache : Cache) : Decidable (cache_keys_nodup cache) := by
  unfold cache_keys_nodup
  infer_instance

/-- One active device in one conversation, a valid controller key. -/
def sys_sample : SysState :=
  { valid_keys := ["K"]
    registry := reg_sample
    store := [("c1", { conversation_id := "c1", participants := ["d1", "A"], state := .active, created_at := 0, last_activity_at := 0 })]
    cache := [("d1", ["c1"])]
    logs := log_state_sample }

theorem revoke_idempotent_at_api_witness :
    ((revoke_device_endpoint (revoke_device_endpoint sys_sample "d1" (some "K") 1).2
        "d1" (some "K") 2).1).status_code = 200 ∧
    (revoke_device_endpoint (revoke_device_endpoint sys_sample "d1" (some "K") 1).2
        "d1" (some "K") 2).2.store =
      (revoke_device_endpoint sys_sample "d1" (some "K") 1).2.store ∧
    (revoke_device_endpoint (revoke_device_endpoint sys_sample "d1" (some "K") 1).2
        "d1" (some "K") 2).2.registry =
      (revoke_device_endpoint sys_sample "d1" (some "K") 1).2.registry :=
  revoke_idempotent_at_api sys_sample "d1" (some "K") 1 2 (by decide) (by decide)
